import Mathlib

/-!
# Verification of the flood-containment core (`src/Level.ts`, `src/Simulation.ts`, utils)

Shallow embedding of the grid/flood core of the `flood` puzzle repository:

* the data model of `Level.ts` (`TileType`, `District`, `LevelData`, `parseLevel`);
* the simulation core (`computeBlockedMask`, `computeReachableFromBoundary`,
  `detectContainedArea`, `runSimulation`, `adjacentHomeCount`) of the
  `Simulation` module that exposes `floodOrder` (the revision imported by
  `Game.ts`, which reads `sim.floodOrder`).

`Uint8Array` cell masks become `List Bool` (an entry is `true` iff the JS byte
is non-zero; out-of-range reads default to `false`), `Int32Array` queues become
`List Nat` plus a head position, and JS numbers in the parser become `Int`
(so `Number.isInteger` always holds in the model).  The breadth-first loops of
the source are modelled with an explicit fuel equal to the cell count, which is
shown sufficient below.
-/

namespace Flood

/-! ## Data model (`Level.ts`) -/

/-- `TileType` from `Level.ts`: `LAND = 0, WATER = 1, ROCK = 2, OUTFLOW = 3`. -/
inductive Tile : Type
  | LAND
  | WATER
  | ROCK
  | OUTFLOW
deriving DecidableEq, Repr

/-- `DistrictType` from `Level.ts`. -/
inductive DistrictType : Type
  | HOME
  | HOSPITAL
  | POWER_STATION
deriving DecidableEq, Repr

/-- `District` from `Level.ts`: a category plus a cell coordinate. -/
structure District : Type where
  type : DistrictType
  x : Nat
  y : Nat
deriving DecidableEq, Repr

/-- `LevelData` from `Level.ts`.  `tiles` is the row-major terrain array. -/
structure LevelData : Type where
  date : String
  width : Nat
  height : Nat
  wallBudget : Int
  tiles : List Tile
  districts : List District
  notes : Option String
deriving DecidableEq, Repr

/-- The row-major cell index of a district, `d.y * level.width + d.x`. -/
def districtIndex (w : Nat) (d : District) : Nat :=
  d.y * w + d.x

/-- Well-formed level: positive dimensions, a full terrain array, and every
district within bounds — the invariants §3 of the design requires of a grid
("grid dimensions are fixed and positive; all arrays addressed by it have
exactly width×height entries"), and which `parseLevel` guarantees for the
district list. -/
def WFLevel (level : LevelData) : Prop :=
  0 < level.width ∧ 0 < level.height ∧
    level.tiles.length = level.width * level.height ∧
    ∀ d ∈ level.districts, d.x < level.width ∧ d.y < level.height

instance (level : LevelData) : Decidable (WFLevel level) := by
  unfold WFLevel; infer_instance

/-! ## Blocked mask (`computeBlockedMask`) -/

/-- The pre-closure mask of `computeBlockedMask`: a cell is blocked iff its
terrain is `ROCK` or (when a levee array is supplied) the levee byte is
non-zero. -/
def rawBlocked (level : LevelData) (levees : Option (List Bool)) : List Bool :=
  (List.range (level.width * level.height)).map (fun i =>
    decide (level.tiles.getD i Tile.LAND = Tile.ROCK) ||
      (match levees with
       | some lv => lv.getD i false
       | none => false))

/-- One 2×2 window of the corner-closure loop body, at top-left `(x, y)`:
first, if the main diagonal `(x,y),(x+1,y+1)` is fully blocked, block the
anti-diagonal; then, reading the updated mask, if the anti-diagonal
`(x+1,y),(x,y+1)` is fully blocked, block the main diagonal. -/
def closeWindow (w : Nat) (m : List Bool) (x y : Nat) : List Bool :=
  let m1 :=
    if m.getD (y * w + x) false && m.getD ((y + 1) * w + (x + 1)) false then
      (m.set (y * w + (x + 1)) true).set ((y + 1) * w + x) true
    else m
  if m1.getD (y * w + (x + 1)) false && m1.getD ((y + 1) * w + x) false then
    (m1.set (y * w + x) true).set ((y + 1) * w + (x + 1)) true
  else m1

/-- The row-major list of 2×2 window positions `(x, y)` with
`y < height - 1` (outer loop) and `x < width - 1` (inner loop). -/
def windowList (w h : Nat) : List (Nat × Nat) :=
  (List.range (h - 1)).flatMap (fun y => (List.range (w - 1)).map (fun x => (x, y)))

/-- The single row-major corner-closure sweep of `computeBlockedMask`. -/
def sweep (w h : Nat) (m : List Bool) : List Bool :=
  (windowList w h).foldl (fun acc p => closeWindow w acc p.1 p.2) m

/-- `computeBlockedMask(level, levees?, applyCornerClosure = true)`. -/
def computeBlockedMask (level : LevelData) (levees : Option (List Bool))
    (applyCornerClosure : Bool := true) : List Bool :=
  if applyCornerClosure then
    sweep level.width level.height (rawBlocked level levees)
  else
    rawBlocked level levees

/-! ## Breadth-first search (`computeReachableFromBoundary` / the flood loop)

Both BFS loops of the source (`walk` in `computeReachableFromBoundary`, `visit`
in `runSimulation`) share the same worklist shape: an `Int32Array` queue with a
`head` pointer and a mark array written exactly when a cell is enqueued.  They
differ only in the seed predicate, so they are modelled by one parametric
search.  `order` is the queue's whole content in enqueue order (it doubles as
`floodOrder` in the flood instance), and `pos` is `head`. -/

/-- Worklist state: the mark array, the enqueue order (= queue content), and
the number of already-popped entries (= `head`). -/
structure BfsState : Type where
  marked : List Bool
  order : List Nat
  pos : Nat
deriving Repr

/-- `x === 0 || y === 0 || x === width-1 || y === height-1` for the cell index
`i` with `x = i % w`, `y = i / w`. -/
def boundaryB (w h i : Nat) : Bool :=
  decide (i % w = 0) || decide (i / w = 0) ||
    decide (i % w = w - 1) || decide (i / w = h - 1)

/-- The in-bounds 4-neighbours of cell `i`, in the source's visit order:
`(x+1, y)`, `(x-1, y)`, `(x, y+1)`, `(x, y-1)`. -/
def nbrs (w h i : Nat) : List Nat :=
  (if i % w + 1 < w then [(i / w) * w + (i % w + 1)] else []) ++
    (if 0 < i % w then [(i / w) * w + (i % w - 1)] else []) ++
    (if i / w + 1 < h then [(i / w + 1) * w + i % w] else []) ++
    (if 0 < i / w then [(i / w - 1) * w + i % w] else [])

/-- The body of `visit`/`walk`: an unmarked, unblocked cell is marked and
enqueued (the in-bounds test has happened in `nbrs`). -/
def visit (blocked : List Bool) (s : BfsState) (n : Nat) : BfsState :=
  if s.marked.getD n false then s
  else if blocked.getD n false then s
  else { s with marked := s.marked.set n true, order := s.order ++ [n] }

/-- One iteration of the `while (head < tail)` loop: pop the cell at `pos` and
visit its four neighbours in order. -/
def bfsStep (w h : Nat) (blocked : List Bool) (s : BfsState) : BfsState :=
  match s.order[s.pos]? with
  | none => s
  | some i => (nbrs w h i).foldl (visit blocked) { s with pos := s.pos + 1 }

/-- The whole `while (head < tail)` loop, with explicit fuel. -/
def bfsRun (w h : Nat) (blocked : List Bool) : Nat → BfsState → BfsState
  | 0, s => s
  | fuel + 1, s =>
      if s.pos < s.order.length then
        bfsRun w h blocked fuel (bfsStep w h blocked s)
      else s

/-- The seeding loop: scan all cells in index order and enqueue those that
satisfy the seed predicate and are unblocked. -/
def seedAll (w h : Nat) (blocked : List Bool) (seedP : Nat → Bool) : BfsState :=
  (List.range (w * h)).foldl
    (fun s i =>
      if seedP i && !(blocked.getD i false) then
        { s with marked := s.marked.set i true, order := s.order ++ [i] }
      else s)
    { marked := List.replicate (w * h) false, order := [], pos := 0 }

/-- Seed, then drain the queue (`w * h` pops always suffice, proved below). -/
def bfsSearch (w h : Nat) (blocked : List Bool) (seedP : Nat → Bool) : BfsState :=
  bfsRun w h blocked (w * h) (seedAll w h blocked seedP)

/-- `computeReachableFromBoundary(level, blocked)`: marks grow from the
non-blocked boundary cells. -/
def computeReachableFromBoundary (level : LevelData) (blocked : List Bool) :
    List Bool :=
  (bfsSearch level.width level.height blocked
    (fun i => boundaryB level.width level.height i)).marked

/-! ## Containment detection (`detectContainedArea`) -/

/-- `detectContainedArea(level, levees)`: some `HOME` district is unreachable
under the levee-inclusive closed mask yet reachable under the rocks-only open
mask. -/
def detectContainedArea (level : LevelData) (levees : List Bool) : Bool :=
  let blockedWithLevees := computeBlockedMask level (some levees) true
  let blockedRocksOnly := computeBlockedMask level none false
  let reachableWithLevees := computeReachableFromBoundary level blockedWithLevees
  let reachableRocksOnly := computeReachableFromBoundary level blockedRocksOnly
  level.districts.any (fun d =>
    if d.type = DistrictType.HOME then
      !(reachableWithLevees.getD (districtIndex level.width d) false) &&
        reachableRocksOnly.getD (districtIndex level.width d) false
    else false)

/-! ## Scoring (`runSimulation`, second half) -/

/-- `adjacentHomeCount(x, y, width, height, districtByIndex)`: the number of
the four orthogonal neighbour cells that carry a `HOME` entry in the district
map, with the source's bounds guards. -/
def adjacentHomeCount (x y w h : Nat) (m : Nat → Option DistrictType) : Nat :=
  (if 0 < x ∧ m (y * w + (x - 1)) = some DistrictType.HOME then 1 else 0) +
    (if x < w - 1 ∧ m (y * w + (x + 1)) = some DistrictType.HOME then 1 else 0) +
    (if 0 < y ∧ m ((y - 1) * w + x) = some DistrictType.HOME then 1 else 0) +
    (if y < h - 1 ∧ m ((y + 1) * w + x) = some DistrictType.HOME then 1 else 0)

/-- One iteration of the first scoring loop: extend `districtByIndex` (a later
`Map.set` overwrites an earlier entry at the same index) and add `+3` for an
unflooded `HOME`, `+10` for an unflooded `HOSPITAL`, `-5` for a flooded
`POWER_STATION`. -/
def pass1Body (w : Nat) (flooded : List Bool)
    (acc : (Nat → Option DistrictType) × Int) (d : District) :
    (Nat → Option DistrictType) × Int :=
  let di := districtIndex w d
  let m := fun j => if j = di then some d.type else acc.1 j
  let cellFlooded := flooded.getD di false
  let sc :=
    if d.type = DistrictType.HOME ∧ cellFlooded = false then acc.2 + 3
    else if d.type = DistrictType.HOSPITAL ∧ cellFlooded = false then acc.2 + 10
    else if d.type = DistrictType.POWER_STATION ∧ cellFlooded = true then acc.2 - 5
    else acc.2
  (m, sc)

/-- The first scoring loop of `runSimulation`. -/
def scorePass1 (w : Nat) (ds : List District) (flooded : List Bool)
    (init : Int) : (Nat → Option DistrictType) × Int :=
  ds.foldl (pass1Body w flooded) (fun _ => none, init)

/-- One iteration of the second scoring loop: for a flooded `POWER_STATION`,
subtract the adjacent-`HOME` count read from the completed district map. -/
def pass2Body (w h : Nat) (flooded : List Bool) (m : Nat → Option DistrictType)
    (sc : Int) (d : District) : Int :=
  if d.type = DistrictType.POWER_STATION ∧
      flooded.getD (districtIndex w d) false = true then
    sc - adjacentHomeCount d.x d.y w h m
  else sc

/-- The second scoring loop of `runSimulation`. -/
def scorePass2 (w h : Nat) (ds : List District) (flooded : List Bool)
    (m : Nat → Option DistrictType) (init : Int) : Int :=
  ds.foldl (pass2Body w h flooded m) init

/-! ## The flood engine (`runSimulation`) -/

/-- `SimResult` of the `floodOrder`-bearing `Simulation` module. -/
structure SimResult : Type where
  flooded : List Bool
  floodOrder : List Nat
  score : Int
  dryLand : Nat
  waterActive : Bool
  hasContainedArea : Bool
deriving DecidableEq, Repr

/-- The flood seed predicate: a boundary cell or a `WATER` terrain cell. -/
def floodSeed (level : LevelData) (i : Nat) : Bool :=
  boundaryB level.width level.height i ||
    decide (level.tiles.getD i Tile.LAND = Tile.WATER)

/-- `runSimulation(level, levees)`.  The optional `buffer` parameter of the
source is a pure allocation-reuse device (the buffer is zero-filled before any
read) and is omitted. -/
def runSimulation (level : LevelData) (levees : List Bool) : SimResult :=
  let total := level.width * level.height
  let blocked := computeBlockedMask level (some levees) true
  let hasContainedArea := detectContainedArea level levees
  let waterActive := hasContainedArea
  if waterActive = false then
    { flooded := List.replicate total false, floodOrder := [], score := 0,
      dryLand := 0, waterActive := waterActive,
      hasContainedArea := hasContainedArea }
  else
    let s := bfsRun level.width level.height blocked total
      (seedAll level.width level.height blocked (floodSeed level))
    let flooded := s.marked
    let dryLand := (List.range total).countP (fun i =>
      decide (level.tiles.getD i Tile.LAND = Tile.LAND) &&
        !(flooded.getD i false) && !(levees.getD i false))
    let p1 := scorePass1 level.width level.districts flooded (dryLand : Int)
    let score := scorePass2 level.width level.height level.districts flooded
      p1.1 p1.2
    { flooded := flooded, floodOrder := s.order, score := score,
      dryLand := dryLand, waterActive := waterActive,
      hasContainedArea := hasContainedArea }

/-! ## Level parsing (`parseLevel` in `Level.ts`)

JS numbers in the raw level are modelled as `Int` (so the
`Number.isInteger(width)`/`Number.isInteger(height)` guard of the source always
passes in the model).  Throwing is modelled with `Except String`. -/

/-- `raw.size`: either a `[width, height]` pair or a single square size. -/
inductive RawSize : Type
  | pair (w h : Int)
  | single (n : Int)
deriving DecidableEq, Repr

/-- `RawLevel` from `Level.ts`. -/
structure RawLevel : Type where
  date : Option String
  size : RawSize
  wallBudget : Int
  tiles : List String
  districts : Option (List District)
  notes : Option String
deriving DecidableEq, Repr

/-- The `(width, height)` pair extracted from `raw.size`. -/
def rawDims (s : RawSize) : Int × Int :=
  match s with
  | RawSize.pair w h => (w, h)
  | RawSize.single n => (n, n)

/-- `TILE_CHAR_TO_TYPE`: the supported tile alphabet. -/
def charToTile (c : Char) : Option Tile :=
  if c = 'L' then some Tile.LAND
  else if c = 'W' then some Tile.WATER
  else if c = 'R' then some Tile.ROCK
  else if c = 'O' then some Tile.OUTFLOW
  else none

/-- Sequential mapping that stops at the first failure, as the source's `for`
loops throw at the first bad row or character. -/
def mapExcept {α β : Type} (f : α → Except String β) :
    List α → Except String (List β)
  | [] => Except.ok []
  | a :: l =>
      match f a with
      | Except.error e => Except.error e
      | Except.ok b =>
          match mapExcept f l with
          | Except.error e => Except.error e
          | Except.ok bs => Except.ok (b :: bs)

/-- One iteration of the row loop: reject a row of the wrong width, then map
every character through the tile alphabet, rejecting unsupported ones. -/
def parseRow (width : Int) (row : String) : Except String (List Tile) :=
  if (row.length : Int) ≠ width then
    Except.error "Level tile width mismatch"
  else
    mapExcept (fun c =>
      match charToTile c with
      | some t => Except.ok t
      | none => Except.error "Unsupported tile") row.toList

/-- The district filter of `parseLevel`: drop out-of-bounds districts and
`HOSPITAL` districts sitting on `ROCK` terrain. -/
def districtFilter (width height : Int) (tiles : List Tile) (d : District) :
    Bool :=
  if (d.x : Int) ≥ width ∨ (d.y : Int) ≥ height then false
  else if d.type = DistrictType.HOSPITAL ∧
      tiles.getD (d.y * width.toNat + d.x) Tile.LAND = Tile.ROCK then false
  else true

/-- `parseLevel(raw, date)`: check the row count, parse each row (checking its
width and characters), filter the districts, and assemble the `LevelData`. -/
def parseLevel (raw : RawLevel) (date : String) : Except String LevelData :=
  let width := (rawDims raw.size).1
  let height := (rawDims raw.size).2
  if (raw.tiles.length : Int) ≠ height then
    Except.error "Level tile rows mismatch"
  else
    match mapExcept (parseRow width) raw.tiles with
    | Except.error e => Except.error e
    | Except.ok rows =>
        let tiles := rows.flatten
        Except.ok
          { date := raw.date.getD date, width := width.toNat,
            height := height.toNat, wallBudget := raw.wallBudget,
            tiles := tiles,
            districts := (raw.districts.getD []).filter
              (districtFilter width height tiles),
            notes := raw.notes }

/-- `true` iff `parseLevel` succeeds (does not throw). -/
def parseOk (raw : RawLevel) (date : String) : Bool :=
  match parseLevel raw date with
  | Except.ok _ => true
  | Except.error _ => false

/-! ## List micro-lemmas -/

theorem getD_true_lt {l : List Bool} {i : Nat} (h : l.getD i false = true) :
    i < l.length := by
  by_contra hc
  rw [List.getD_eq_getElem?_getD, List.getElem?_eq_none (Nat.le_of_not_lt hc)] at h
  simp at h

theorem getD_set_self {l : List Bool} {j : Nat} (h : j < l.length) (v : Bool) :
    (l.set j v).getD j false = v := by
  rw [List.getD_eq_getElem?_getD, List.getElem?_set_self h]
  rfl

theorem getD_set_ne {l : List Bool} {i j : Nat} (h : i ≠ j) (v : Bool) :
    (l.set j v).getD i false = l.getD i false := by
  rw [List.getD_eq_getElem?_getD, List.getElem?_set_ne (fun e => h e.symm),
    ← List.getD_eq_getElem?_getD]

theorem getD_set_true_mono {l : List Bool} {i j : Nat}
    (h : l.getD i false = true) : (l.set j true).getD i false = true := by
  by_cases hij : i = j
  · subst hij
    exact getD_set_self (getD_true_lt h) true
  · rw [getD_set_ne hij]; exact h

theorem getD_replicate_false (n i : Nat) :
    (List.replicate n false).getD i false = false := by
  rw [List.getD_eq_getElem?_getD]
  by_cases h : i < n
  · rw [List.getElem?_eq_getElem (by simpa using h)]
    simp
  · rw [List.getElem?_eq_none (by simpa using Nat.le_of_not_lt h)]
    rfl

/-- A list of distinct naturals all below `n` has at most `n` entries. -/
theorem nodup_length_le {l : List Nat} {n : Nat} (hnd : l.Nodup)
    (hlt : ∀ i ∈ l, i < n) : l.length ≤ n := by
  have hsub : l.toFinset ⊆ Finset.range n := by
    intro x hx
    exact Finset.mem_range.mpr (hlt x (List.mem_toFinset.mp hx))
  calc l.length = l.toFinset.card := (List.toFinset_card_of_nodup hnd).symm
    _ ≤ (Finset.range n).card := Finset.card_le_card hsub
    _ = n := Finset.card_range n

/-! ## Coordinates and neighbours -/

theorem coord_mod {w : Nat} (y : Nat) {x : Nat} (hx : x < w) :
    (y * w + x) % w = x := by
  rw [Nat.add_comm, Nat.add_mul_mod_self_right]
  exact Nat.mod_eq_of_lt hx

theorem coord_div {w : Nat} (y : Nat) {x : Nat} (hx : x < w) :
    (y * w + x) / w = y := by
  rw [Nat.add_comm, Nat.add_mul_div_right _ _ (Nat.lt_of_le_of_lt (Nat.zero_le x) hx)]
  rw [Nat.div_eq_of_lt hx]
  exact Nat.zero_add y

theorem index_lt {w h : Nat} {x y : Nat} (hx : x < w) (hy : y < h) :
    y * w + x < w * h := by
  calc y * w + x < y * w + w := Nat.add_lt_add_left hx _
    _ = (y + 1) * w := (Nat.succ_mul y w).symm
    _ ≤ h * w := Nat.mul_le_mul_right w hy
    _ = w * h := Nat.mul_comm h w

theorem mod_lt_of_lt_mul {w h i : Nat} (hi : i < w * h) : i % w < w :=
  Nat.mod_lt _ (Nat.pos_of_ne_zero (by rintro rfl; simp at hi))

theorem div_lt_of_lt_mul {w h i : Nat} (hi : i < w * h) : i / w < h := by
  exact Nat.div_lt_of_lt_mul hi

theorem index_ext {w : Nat} (i : Nat) :
    (i / w) * w + i % w = i := by
  rw [Nat.mul_comm, Nat.add_comm]
  exact Nat.mod_add_div i w

/-- Membership in the neighbour list, unfolded to the four directional cases. -/
theorem mem_nbrs_iff {w h i j : Nat} :
    j ∈ nbrs w h i ↔
      (i % w + 1 < w ∧ j = (i / w) * w + (i % w + 1)) ∨
      (0 < i % w ∧ j = (i / w) * w + (i % w - 1)) ∨
      (i / w + 1 < h ∧ j = (i / w + 1) * w + i % w) ∨
      (0 < i / w ∧ j = (i / w - 1) * w + i % w) := by
  simp only [nbrs, List.mem_append]
  constructor
  · rintro (((hj | hj) | hj) | hj) <;>
      [skip; skip; (exact Or.inr (Or.inr (Or.inl (by
        revert hj; split <;> intro hj <;> simp_all))));
        (exact Or.inr (Or.inr (Or.inr (by revert hj; split <;> intro hj <;> simp_all))))]
    · exact Or.inl (by revert hj; split <;> intro hj <;> simp_all
      )
    · exact Or.inr (Or.inl (by revert hj; split <;> intro hj <;> simp_all))
  · rintro (⟨hc, rfl⟩ | ⟨hc, rfl⟩ | ⟨hc, rfl⟩ | ⟨hc, rfl⟩)
    · exact Or.inl (Or.inl (Or.inl (by rw [if_pos hc]; simp)))
    · exact Or.inl (Or.inl (Or.inr (by rw [if_pos hc]; simp)))
    · exact Or.inl (Or.inr (by rw [if_pos hc]; simp))
    · exact Or.inr (by rw [if_pos hc]; simp)

/-- Neighbours of an in-range cell are in range. -/
theorem nbrs_lt {w h i j : Nat} (hi : i < w * h) (hj : j ∈ nbrs w h i) :
    j < w * h := by
  have hx := mod_lt_of_lt_mul hi
  have hy := div_lt_of_lt_mul hi
  rcases mem_nbrs_iff.mp hj with ⟨hc, rfl⟩ | ⟨hc, rfl⟩ | ⟨hc, rfl⟩ | ⟨hc, rfl⟩
  · exact index_lt hc hy
  · exact index_lt (Nat.lt_of_le_of_lt (Nat.sub_le _ _) hx) hy
  · exact index_lt hx hc
  · exact index_lt hx (Nat.lt_of_le_of_lt (Nat.sub_le _ _) hy)

/-- The neighbour relation is symmetric on in-range cells. -/
theorem nbrs_symm {w h i j : Nat} (hi : i < w * h) (hj : j ∈ nbrs w h i) :
    i ∈ nbrs w h j := by
  have hx := mod_lt_of_lt_mul hi
  have hy := div_lt_of_lt_mul hi
  have hieq : (i / w) * w + i % w = i := index_ext i
  rcases mem_nbrs_iff.mp hj with ⟨hc, rfl⟩ | ⟨hc, rfl⟩ | ⟨hc, rfl⟩ | ⟨hc, rfl⟩
  · -- j is east of i; i is west of j
    refine mem_nbrs_iff.mpr (Or.inr (Or.inl ?_))
    rw [coord_mod _ hc, coord_div _ hc]
    exact ⟨Nat.succ_pos _, by rw [Nat.add_sub_cancel]; exact hieq.symm⟩
  · -- j is west of i; i is east of j
    refine mem_nbrs_iff.mpr (Or.inl ?_)
    have hx1 : i % w - 1 < w := Nat.lt_of_le_of_lt (Nat.sub_le _ _) hx
    rw [coord_mod _ hx1, coord_div _ hx1]
    rw [Nat.sub_add_cancel hc]
    exact ⟨hx, hieq.symm⟩
  · -- j is south of i; i is north of j
    refine mem_nbrs_iff.mpr (Or.inr (Or.inr (Or.inr ?_)))
    rw [coord_mod _ hx, coord_div _ hx]
    exact ⟨Nat.succ_pos _, by rw [Nat.add_sub_cancel]; exact hieq.symm⟩
  · -- j is north of i; i is south of j
    refine mem_nbrs_iff.mpr (Or.inr (Or.inr (Or.inl ?_)))
    rw [coord_mod _ hx, coord_div _ hx]
    rw [Nat.sub_add_cancel hc]
    exact ⟨hy, hieq.symm⟩

/-! ## Reachability from the seeds -/

/-- `ReachFrom w h blocked seedP i`: the cell `i` is joined to an unblocked
seed cell by a 4-connected chain of unblocked in-range cells. -/
inductive ReachFrom (w h : Nat) (blocked : List Bool) (seedP : Nat → Bool) :
    Nat → Prop
  | seed (i : Nat) (hi : i < w * h) (hs : seedP i = true)
      (hb : blocked.getD i false = false) : ReachFrom w h blocked seedP i
  | step (i j : Nat) (hr : ReachFrom w h blocked seedP i) (hj : j ∈ nbrs w h i)
      (hb : blocked.getD j false = false) : ReachFrom w h blocked seedP j

theorem ReachFrom.lt {w h : Nat} {blocked : List Bool} {seedP : Nat → Bool}
    {i : Nat} (hr : ReachFrom w h blocked seedP i) : i < w * h := by
  induction hr with
  | seed i hi _ _ => exact hi
  | step i j _ hj _ ih => exact nbrs_lt ih hj

theorem ReachFrom.unblocked {w h : Nat} {blocked : List Bool}
    {seedP : Nat → Bool} {i : Nat} (hr : ReachFrom w h blocked seedP i) :
    blocked.getD i false = false := by
  cases hr with
  | seed _ _ _ hb => exact hb
  | step _ _ _ _ hb => exact hb

/-- The breadth-first layering property of an enqueue order: every entry is a
seed or has an entry strictly earlier in the order among its 4-neighbours. -/
def LayeredOrder (w h : Nat) (seedP : Nat → Bool) (order : List Nat) : Prop :=
  ∀ (k c : Nat), order[k]? = some c →
    seedP c = true ∨ ∃ (m j : Nat), m < k ∧ order[m]? = some j ∧ j ∈ nbrs w h c

theorem layeredOrder_append {w h : Nat} {seedP : Nat → Bool}
    {order : List Nat} {n : Nat} (hl : LayeredOrder w h seedP order)
    (hn : seedP n = true ∨ ∃ j ∈ order, j ∈ nbrs w h n) :
    LayeredOrder w h seedP (order ++ [n]) := by
  intro k c hk
  rcases Nat.lt_trichotomy k order.length with hlt | heq | hgt
  · rw [List.getElem?_append_left hlt] at hk
    rcases hl k c hk with hs | ⟨m, j, hm, hmj, hjn⟩
    · exact Or.inl hs
    · exact Or.inr ⟨m, j, hm,
        by rw [List.getElem?_append_left (Nat.lt_trans hm hlt)]; exact hmj, hjn⟩
  · subst heq
    rw [List.getElem?_concat_length] at hk
    cases hk
    rcases hn with hs | ⟨j, hjmem, hjn⟩
    · exact Or.inl hs
    · rcases List.getElem?_of_mem hjmem with ⟨m, hm⟩
      have hmlt : m < order.length := by
        by_contra hc
        rw [List.getElem?_eq_none (Nat.le_of_not_lt hc)] at hm
        cases hm
      exact Or.inr ⟨m, j, hmlt,
        by rw [List.getElem?_append_left hmlt]; exact hm, hjn⟩
  · exfalso
    rw [List.getElem?_eq_none (by simpa using hgt)] at hk
    cases hk

/-- The core worklist invariant (everything except the processed-prefix
property): the mark array has one entry per cell and is `true` exactly on the
enqueued cells, which are distinct, in range, unblocked, reachable from the
seeds and breadth-first layered; the head pointer never passes the tail. -/
structure InvC (w h : Nat) (blocked : List Bool) (seedP : Nat → Bool)
    (s : BfsState) : Prop where
  mlen : s.marked.length = w * h
  posLe : s.pos ≤ s.order.length
  nodup : s.order.Nodup
  bound : ∀ i ∈ s.order, i < w * h
  markedIff : ∀ i, s.marked.getD i false = true ↔ i ∈ s.order
  notBlocked : ∀ i ∈ s.order, blocked.getD i false = false
  layered : LayeredOrder w h seedP s.order
  reach : ∀ i ∈ s.order, ReachFrom w h blocked seedP i

/-- The popped prefix of the queue is fully expanded: every unblocked
neighbour of a popped cell is already marked. -/
def Processed (w h : Nat) (blocked : List Bool) (s : BfsState) : Prop :=
  ∀ i ∈ s.order.take s.pos, ∀ n ∈ nbrs w h i,
    blocked.getD n false = false → s.marked.getD n false = true

theorem visit_spec {w h : Nat} {blocked : List Bool} {seedP : Nat → Bool}
    {s : BfsState} (hInv : InvC w h blocked seedP s) {i : Nat}
    (hiMem : i ∈ s.order) {n : Nat} (hn : n ∈ nbrs w h i) :
    InvC w h blocked seedP (visit blocked s n) ∧
      (∃ suf, (visit blocked s n).order = s.order ++ suf) ∧
      (visit blocked s n).pos = s.pos ∧
      (blocked.getD n false = false →
        (visit blocked s n).marked.getD n false = true) ∧
      (∀ m, s.marked.getD m false = true →
        (visit blocked s n).marked.getD m false = true) := by
  unfold visit
  by_cases hm : s.marked.getD n false = true
  · rw [if_pos hm]
    exact ⟨hInv, ⟨[], (List.append_nil _).symm⟩, rfl, fun _ => hm, fun _ hx => hx⟩
  · rw [if_neg hm]
    by_cases hb : blocked.getD n false = true
    · rw [if_pos hb]
      refine ⟨hInv, ⟨[], (List.append_nil _).symm⟩, rfl, fun hbn => ?_, fun _ hx => hx⟩
      rw [hb] at hbn; cases hbn
    · rw [if_neg hb]
      replace hb : blocked.getD n false = false := by
        cases hx : blocked.getD n false
        · rfl
        · exact absurd hx hb
      have hnm : n ∉ s.order := fun hc => hm ((hInv.markedIff n).mpr hc)
      have hnlt : n < w * h := nbrs_lt (hInv.bound i hiMem) hn
      have hmono : ∀ m, s.marked.getD m false = true →
          (s.marked.set n true).getD m false = true :=
        fun m hx => getD_set_true_mono hx
      refine ⟨?_, ⟨[n], rfl⟩, rfl, fun _ => ?_, hmono⟩
      · refine ⟨by simpa using hInv.mlen,
          Nat.le_trans hInv.posLe (by simp),
          by simp only [List.nodup_append]; exact
            ⟨hInv.nodup, List.nodup_singleton n,
              by simpa [List.disjoint_singleton] using hnm⟩,
          ?_, ?_, ?_, ?_, ?_⟩
        · intro m hmem
          rcases List.mem_append.mp hmem with hmem | hmem
          · exact hInv.bound m hmem
          · rw [List.mem_singleton.mp hmem]; exact hnlt
        · intro m
          by_cases hmn : m = n
          · subst hmn
            simp only [getD_set_self (by rw [hInv.mlen]; exact hnlt) true]
            simp
          · rw [getD_set_ne hmn]
            rw [hInv.markedIff m]
            simp [hmn]
        · intro m hmem
          rcases List.mem_append.mp hmem with hmem | hmem
          · exact hInv.notBlocked m hmem
          · rw [List.mem_singleton.mp hmem]; exact hb
        · exact layeredOrder_append hInv.layered
            (Or.inr ⟨i, hiMem, nbrs_symm (hInv.bound i hiMem) hn⟩)
        · intro m hmem
          rcases List.mem_append.mp hmem with hmem | hmem
          · exact hInv.reach m hmem
          · rw [List.mem_singleton.mp hmem]
            exact ReachFrom.step i n (hInv.reach i hiMem) hn hb
      · exact getD_set_self (by rw [hInv.mlen]; exact hnlt) true

theorem visitFold_spec {w h : Nat} {blocked : List Bool} {seedP : Nat → Bool}
    {i : Nat} :
    ∀ (ns : List Nat) (s : BfsState), InvC w h blocked seedP s → i ∈ s.order →
      (∀ n ∈ ns, n ∈ nbrs w h i) →
      InvC w h blocked seedP (ns.foldl (visit blocked) s) ∧
        (∃ suf, (ns.foldl (visit blocked) s).order = s.order ++ suf) ∧
        (ns.foldl (visit blocked) s).pos = s.pos ∧
        (∀ n ∈ ns, blocked.getD n false = false →
          (ns.foldl (visit blocked) s).marked.getD n false = true) ∧
        (∀ m, s.marked.getD m false = true →
          (ns.foldl (visit blocked) s).marked.getD m false = true) := by
  intro ns
  induction ns with
  | nil =>
      intro s hInv hiMem _
      exact ⟨hInv, ⟨[], (List.append_nil _).symm⟩, rfl, by simp, fun _ hx => hx⟩
  | cons n ns ih =>
      intro s hInv hiMem hns
      have hn : n ∈ nbrs w h i := hns n (List.mem_cons_self n ns)
      obtain ⟨hInv1, ⟨suf1, hord1⟩, hpos1, hmark1, hmono1⟩ :=
        visit_spec hInv hiMem hn
      have hiMem1 : i ∈ (visit blocked s n).order := by
        rw [hord1]; exact List.mem_append_left _ hiMem
      obtain ⟨hInv2, ⟨suf2, hord2⟩, hpos2, hmark2, hmono2⟩ :=
        ih (visit blocked s n) hInv1 hiMem1
          (fun m hm => hns m (List.mem_cons_of_mem n hm))
      rw [List.foldl_cons]
      refine ⟨hInv2, ⟨suf1 ++ suf2, by rw [hord2, hord1, List.append_assoc]⟩,
        hpos2.trans hpos1, ?_, fun m hm => hmono2 m (hmono1 m hm)⟩
      intro m hm hbm
      rcases List.mem_cons.mp hm with rfl | hm
      · exact hmono2 m (hmark1 hbm)
      · exact hmark2 m hm hbm

theorem bfsStep_spec {w h : Nat} {blocked : List Bool} {seedP : Nat → Bool}
    {s : BfsState} (hInv : InvC w h blocked seedP s)
    (hProc : Processed w h blocked s) (hp : s.pos < s.order.length) :
    InvC w h blocked seedP (bfsStep w h blocked s) ∧
      Processed w h blocked (bfsStep w h blocked s) ∧
      (bfsStep w h blocked s).pos = s.pos + 1 ∧
      (∃ suf, (bfsStep w h blocked s).order = s.order ++ suf) ∧
      (∀ m, s.marked.getD m false = true →
        (bfsStep w h blocked s).marked.getD m false = true) := by
  have hget : s.order[s.pos]? = some s.order[s.pos] := List.getElem?_eq_getElem hp
  set i := s.order[s.pos] with hidef
  have hiMem : i ∈ s.order := List.getElem_mem hp
  have hInv' : InvC w h blocked seedP { s with pos := s.pos + 1 } :=
    { mlen := hInv.mlen, posLe := hp, nodup := hInv.nodup,
      bound := hInv.bound, markedIff := hInv.markedIff,
      notBlocked := hInv.notBlocked, layered := hInv.layered,
      reach := hInv.reach }
  obtain ⟨hInv2, ⟨suf, hord⟩, hpos, hmark, hmono⟩ :=
    visitFold_spec (nbrs w h i) { s with pos := s.pos + 1 } hInv' hiMem
      (fun _ hm => hm)
  have hstep : bfsStep w h blocked s =
      (nbrs w h i).foldl (visit blocked) { s with pos := s.pos + 1 } := by
    unfold bfsStep
    rw [hget]
  rw [hstep]
  refine ⟨hInv2, ?_, hpos, ⟨suf, hord⟩, hmono⟩
  -- the processed prefix grows by exactly the popped cell `i`
  intro c hc n hn hbn
  have htake : ((nbrs w h i).foldl (visit blocked)
      { s with pos := s.pos + 1 }).order.take
        ((nbrs w h i).foldl (visit blocked) { s with pos := s.pos + 1 }).pos =
      s.order.take s.pos ++ [i] := by
    rw [hpos, hord]
    show (s.order ++ suf).take (s.pos + 1) = _
    rw [List.take_append_of_le_length (by omega), List.take_succ, hget]
    rfl
  rw [htake] at hc
  rcases List.mem_append.mp hc with hc | hc
  · exact hmono n (hProc c hc n hn hbn)
  · have hci : c = i := List.mem_singleton.mp hc
    subst hci
    exact hmark n hn hbn

theorem bfsRun_spec {w h : Nat} {blocked : List Bool} {seedP : Nat → Bool} :
    ∀ (fuel : Nat) (s : BfsState), InvC w h blocked seedP s →
      Processed w h blocked s →
      InvC w h blocked seedP (bfsRun w h blocked fuel s) ∧
        Processed w h blocked (bfsRun w h blocked fuel s) ∧
        (∃ suf, (bfsRun w h blocked fuel s).order = s.order ++ suf) ∧
        (∀ m, s.marked.getD m false = true →
          (bfsRun w h blocked fuel s).marked.getD m false = true) ∧
        (w * h ≤ fuel + s.pos →
          (bfsRun w h blocked fuel s).pos =
            (bfsRun w h blocked fuel s).order.length) := by
  intro fuel
  induction fuel with
  | zero =>
      intro s hInv hProc
      have hrfl : bfsRun w h blocked 0 s = s := rfl
      rw [hrfl]
      refine ⟨hInv, hProc, ⟨[], (List.append_nil _).symm⟩, fun _ hx => hx, ?_⟩
      intro hle
      have hlen : s.order.length ≤ w * h := nodup_length_le hInv.nodup hInv.bound
      exact Nat.le_antisymm hInv.posLe (by omega)
  | succ fuel ih =>
      intro s hInv hProc
      show _ ∧ _ ∧ _ ∧ _ ∧ (w * h ≤ fuel + 1 + s.pos → _)
      unfold bfsRun
      by_cases hp : s.pos < s.order.length
      · rw [if_pos hp]
        obtain ⟨hInv1, hProc1, hpos1, ⟨suf1, hord1⟩, hmono1⟩ :=
          bfsStep_spec hInv hProc hp
        obtain ⟨hInv2, hProc2, ⟨suf2, hord2⟩, hmono2, hfuel2⟩ :=
          ih (bfsStep w h blocked s) hInv1 hProc1
        refine ⟨hInv2, hProc2,
          ⟨suf1 ++ suf2, by rw [hord2, hord1, List.append_assoc]⟩,
          fun m hm => hmono2 m (hmono1 m hm), ?_⟩
        intro hle
        exact hfuel2 (by omega)
      · rw [if_neg hp]
        refine ⟨hInv, hProc, ⟨[], (List.append_nil _).symm⟩, fun _ hx => hx, ?_⟩
        intro _
        exact Nat.le_antisymm hInv.posLe (Nat.le_of_not_lt hp)

theorem seedFold_spec {w h : Nat} {blocked : List Bool} {seedP : Nat → Bool} :
    ∀ (l : List Nat) (s : BfsState), InvC w h blocked seedP s → s.pos = 0 →
      (∀ i ∈ l, i < w * h) → (∀ i ∈ l, seedP i = true → i ∉ s.order) →
      l.Nodup →
      InvC w h blocked seedP
        (l.foldl (fun s i =>
          if seedP i && !(blocked.getD i false) then
            { s with marked := s.marked.set i true, order := s.order ++ [i] }
          else s) s) ∧
      (l.foldl (fun s i =>
          if seedP i && !(blocked.getD i false) then
            { s with marked := s.marked.set i true, order := s.order ++ [i] }
          else s) s).pos = 0 ∧
      (∃ suf, (l.foldl (fun s i =>
          if seedP i && !(blocked.getD i false) then
            { s with marked := s.marked.set i true, order := s.order ++ [i] }
          else s) s).order = s.order ++ suf) ∧
      (∀ i ∈ l, seedP i = true → blocked.getD i false = false →
        i ∈ (l.foldl (fun s i =>
          if seedP i && !(blocked.getD i false) then
            { s with marked := s.marked.set i true, order := s.order ++ [i] }
          else s) s).order) := by
  intro l
  induction l with
  | nil =>
      intro s hInv hpos _ _ _
      exact ⟨hInv, hpos, ⟨[], (List.append_nil _).symm⟩, by simp⟩
  | cons a l ih =>
      intro s hInv hpos hlt hnotin hnd
      rw [List.foldl_cons]
      by_cases hcond : (seedP a && !(blocked.getD a false)) = true
      · rw [if_pos hcond]
        obtain ⟨hsa, hba⟩ := Bool.and_eq_true_iff.mp hcond
        have hba' : blocked.getD a false = false := by
          cases hx : blocked.getD a false
          · rfl
          · rw [hx] at hba; cases hba
        have halt : a < w * h := hlt a (List.mem_cons_self a l)
        have hanotin : a ∉ s.order := hnotin a (List.mem_cons_self a l) hsa
        set s1 : BfsState :=
          { s with marked := s.marked.set a true, order := s.order ++ [a] }
          with hs1
        have hInv1 : InvC w h blocked seedP s1 := by
          refine ⟨by simpa using hInv.mlen,
            Nat.le_trans hInv.posLe (by simp), ?_, ?_, ?_, ?_, ?_, ?_⟩
          · simp only [hs1, List.nodup_append]
            exact ⟨hInv.nodup, List.nodup_singleton a,
              by simpa [List.disjoint_singleton] using hanotin⟩
          · intro m hmem
            rcases List.mem_append.mp hmem with hmem | hmem
            · exact hInv.bound m hmem
            · rw [List.mem_singleton.mp hmem]; exact halt
          · intro m
            by_cases hma : m = a
            · subst hma
              simp only [hs1]
              rw [getD_set_self (by rw [hInv.mlen]; exact halt) true]
              simp
            · simp only [hs1]
              rw [getD_set_ne hma, hInv.markedIff m]
              simp [hma]
          · intro m hmem
            rcases List.mem_append.mp hmem with hmem | hmem
            · exact hInv.notBlocked m hmem
            · rw [List.mem_singleton.mp hmem]; exact hba'
          · exact layeredOrder_append hInv.layered (Or.inl hsa)
          · intro m hmem
            rcases List.mem_append.mp hmem with hmem | hmem
            · exact hInv.reach m hmem
            · rw [List.mem_singleton.mp hmem]
              exact ReachFrom.seed a halt hsa hba'
        have hnotin1 : ∀ i ∈ l, seedP i = true → i ∉ s1.order := by
          intro i hil hsi hmem
          rcases List.mem_append.mp hmem with hmem | hmem
          · exact hnotin i (List.mem_cons_of_mem a hil) hsi hmem
          · rw [List.mem_singleton.mp hmem] at hil
            exact (List.nodup_cons.mp hnd).1 hil
        obtain ⟨hInv2, hpos2, ⟨suf2, hord2⟩, hmem2⟩ :=
          ih s1 hInv1 hpos (fun i hil => hlt i (List.mem_cons_of_mem a hil))
            hnotin1 (List.nodup_cons.mp hnd).2
        refine ⟨hInv2, hpos2, ⟨[a] ++ suf2, by
          rw [hord2]; simp [hs1]⟩, ?_⟩
        intro i hi hsi hbi
        rcases List.mem_cons.mp hi with rfl | hi
        · rw [hord2]
          exact List.mem_append_left _ (List.mem_append_right _
            (List.mem_singleton_self i))
        · exact hmem2 i hi hsi hbi
      · rw [if_neg hcond]
        have hnotin' : ∀ i ∈ l, seedP i = true → i ∉ s.order :=
          fun i hil hsi => hnotin i (List.mem_cons_of_mem a hil) hsi
        obtain ⟨hInv2, hpos2, hord2, hmem2⟩ :=
          ih s hInv hpos (fun i hil => hlt i (List.mem_cons_of_mem a hil))
            hnotin' (List.nodup_cons.mp hnd).2
        refine ⟨hInv2, hpos2, hord2, ?_⟩
        intro i hi hsi hbi
        rcases List.mem_cons.mp hi with rfl | hi
        · exfalso
          apply hcond
          rw [hsi, hbi]
          rfl
        · exact hmem2 i hi hsi hbi

theorem initial_invC {w h : Nat} {blocked : List Bool} {seedP : Nat → Bool} :
    InvC w h blocked seedP
      { marked := List.replicate (w * h) false, order := [], pos := 0 } := by
  refine ⟨by simp, by simp, List.nodup_nil, by simp, ?_, by simp, ?_, by simp⟩
  · intro i
    rw [getD_replicate_false]
    simp
  · intro k c hk
    rw [List.getElem?_nil] at hk
    cases hk

theorem seedAll_spec {w h : Nat} {blocked : List Bool} {seedP : Nat → Bool} :
    InvC w h blocked seedP (seedAll w h blocked seedP) ∧
      (seedAll w h blocked seedP).pos = 0 ∧
      (∀ i, i < w * h → seedP i = true → blocked.getD i false = false →
        i ∈ (seedAll w h blocked seedP).order) := by
  obtain ⟨hInv, hpos, _, hmem⟩ :=
    @seedFold_spec w h blocked seedP (List.range (w * h))
      { marked := List.replicate (w * h) false, order := [], pos := 0 }
      initial_invC rfl (fun i hi => List.mem_range.mp hi)
      (fun i _ _ hc => absurd hc (List.not_mem_nil i)) (List.nodup_range _)
  exact ⟨hInv, hpos, fun i hi hsi hbi =>
    hmem i (List.mem_range.mpr hi) hsi hbi⟩

/-- Summary invariants of the finished search: the core invariant, an
exhausted queue, a fully expanded order, and the presence of all seeds. -/
theorem bfsSearch_spec {w h : Nat} {blocked : List Bool} {seedP : Nat → Bool} :
    InvC w h blocked seedP (bfsSearch w h blocked seedP) ∧
      (bfsSearch w h blocked seedP).pos =
        (bfsSearch w h blocked seedP).order.length ∧
      Processed w h blocked (bfsSearch w h blocked seedP) ∧
      (∀ i, i < w * h → seedP i = true → blocked.getD i false = false →
        i ∈ (bfsSearch w h blocked seedP).order) := by
  obtain ⟨hInv0, hpos0, hmem0⟩ :=
    @seedAll_spec w h blocked seedP
  have hProc0 : Processed w h blocked (seedAll w h blocked seedP) := by
    intro i hi
    rw [hpos0, List.take_zero] at hi
    cases hi
  obtain ⟨hInv, hProc, ⟨suf, hord⟩, _, hfuel⟩ :=
    bfsRun_spec (w * h) (seedAll w h blocked seedP) hInv0 hProc0
  refine ⟨hInv, hfuel (by omega), hProc, ?_⟩
  intro i hi hsi hbi
  show i ∈ (bfsRun w h blocked (w * h) (seedAll w h blocked seedP)).order
  rw [hord]
  exact List.mem_append_left _ (hmem0 i hi hsi hbi)

/-- Soundness and completeness of the worklist search: a cell is enqueued iff
it is reachable from the seeds. -/
theorem bfsSearch_mem_iff {w h : Nat} {blocked : List Bool}
    {seedP : Nat → Bool} (i : Nat) :
    i ∈ (bfsSearch w h blocked seedP).order ↔
      ReachFrom w h blocked seedP i := by
  obtain ⟨hInv, hdone, hProc, hseeds⟩ :=
    @bfsSearch_spec w h blocked seedP
  constructor
  · exact hInv.reach i
  · intro hr
    induction hr with
    | seed j hj hsj hbj => exact hseeds j hj hsj hbj
    | step j c hr hc hbc ih =>
        have hjmem : j ∈ (bfsSearch w h blocked seedP).order.take
            (bfsSearch w h blocked seedP).pos := by
          rw [hdone, List.take_length]
          exact ih
        exact (hInv.markedIff c).mp (hProc j hjmem c hc hbc)

/-- A cell is marked by the search iff it is reachable from the seeds. -/
theorem bfsSearch_marked_iff {w h : Nat} {blocked : List Bool}
    {seedP : Nat → Bool} (i : Nat) :
    (bfsSearch w h blocked seedP).marked.getD i false = true ↔
      ReachFrom w h blocked seedP i := by
  obtain ⟨hInv, _, _, _⟩ :=
    @bfsSearch_spec w h blocked seedP
  rw [hInv.markedIff i]
  exact bfsSearch_mem_iff i

/-! ## Paths -/

/-- A 4-directionally-connected path of in-range, non-blocked cells. -/
def UnblockedPath (w h : Nat) (blocked : List Bool) (p : List Nat) : Prop :=
  (∀ c ∈ p, c < w * h ∧ blocked.getD c false = false) ∧
    p.Chain' (fun a b => b ∈ nbrs w h a)

theorem path_to_reach {w h : Nat} {blocked : List Bool} {seedP : Nat → Bool} :
    ∀ (q : List Nat) (c e : Nat),
      (∀ x ∈ c :: q, x < w * h ∧ blocked.getD x false = false) →
      List.Chain' (fun a b => b ∈ nbrs w h a) (c :: q) →
      (c :: q).getLast? = some e → seedP e = true →
      ReachFrom w h blocked seedP c := by
  intro q
  induction q with
  | nil =>
      intro c e hcells _ hlast hse
      rw [List.getLast?_singleton] at hlast
      cases hlast
      obtain ⟨hlt, hb⟩ := hcells c (List.mem_singleton_self c)
      exact ReachFrom.seed c hlt hse hb
  | cons d q ih =>
      intro c e hcells hchain hlast hse
      rw [List.chain'_cons'] at hchain
      obtain ⟨hstep, hchain'⟩ := hchain
      have hd : d ∈ nbrs w h c := hstep d List.head?_cons
      obtain ⟨hclt, hcb⟩ := hcells c (List.mem_cons_self c _)
      have hr : ReachFrom w h blocked seedP d :=
        ih d e (fun x hx => hcells x (List.mem_cons_of_mem c hx)) hchain'
          (by rw [List.getLast?_cons_cons] at hlast; exact hlast) hse
      exact ReachFrom.step d c hr (nbrs_symm hclt hd) hcb

/-- Reachability from the seeds is exactly the existence of an unblocked path
ending in a seed cell. -/
theorem reachFrom_iff_path {w h : Nat} {blocked : List Bool}
    {seedP : Nat → Bool} (c : Nat) :
    ReachFrom w h blocked seedP c ↔
      ∃ p, UnblockedPath w h blocked p ∧ p.head? = some c ∧
        ∃ e, p.getLast? = some e ∧ seedP e = true := by
  constructor
  · intro hr
    induction hr with
    | seed i hi hsi hbi =>
        refine ⟨[i], ⟨?_, List.chain'_singleton i⟩, rfl, i, rfl, hsi⟩
        intro x hx
        rw [List.mem_singleton.mp hx]
        exact ⟨hi, hbi⟩
    | step i j hr hj hbj ih =>
        obtain ⟨p, ⟨hcells, hchain⟩, hhead, e, hlast, hse⟩ := ih
        have hi : i < w * h := hr.lt
        have hjlt : j < w * h := nbrs_lt hi hj
        refine ⟨j :: p, ⟨?_, ?_⟩, List.head?_cons, e, ?_, hse⟩
        · intro x hx
          rcases List.mem_cons.mp hx with rfl | hx
          · exact ⟨hjlt, hbj⟩
          · exact hcells x hx
        · rw [List.chain'_cons']
          refine ⟨?_, hchain⟩
          intro y hy
          rw [hhead] at hy
          cases hy
          exact nbrs_symm hi hj
        · cases p with
          | nil => cases hhead
          | cons a q => rw [List.getLast?_cons_cons]; exact hlast
  · rintro ⟨p, ⟨hcells, hchain⟩, hhead, e, hlast, hse⟩
    cases p with
    | nil => cases hhead
    | cons a q =>
        rw [List.head?_cons] at hhead
        cases hhead
        exact path_to_reach q c e hcells hchain hlast hse

/-! ## Corner-closure sweep: the closure only ever adds blocks -/

theorem closeWindow_mono {w x y i : Nat} {m : List Bool}
    (hm : m.getD i false = true) :
    (closeWindow w m x y).getD i false = true := by
  simp only [closeWindow]
  split
  · split
    · exact getD_set_true_mono (getD_set_true_mono
        (getD_set_true_mono (getD_set_true_mono hm)))
    · exact getD_set_true_mono (getD_set_true_mono hm)
  · split
    · exact getD_set_true_mono (getD_set_true_mono hm)
    · exact hm

theorem sweepFold_mono {w : Nat} :
    ∀ (ps : List (Nat × Nat)) (m : List Bool) (i : Nat),
      m.getD i false = true →
      (ps.foldl (fun acc p => closeWindow w acc p.1 p.2) m).getD i false = true := by
  intro ps
  induction ps with
  | nil => intro m i hm; exact hm
  | cons p ps ih =>
      intro m i hm
      rw [List.foldl_cons]
      exact ih _ i (closeWindow_mono hm)

theorem sweep_mono {w h i : Nat} {m : List Bool}
    (hm : m.getD i false = true) : (sweep w h m).getD i false = true :=
  sweepFold_mono (windowList w h) m i hm

/-- The closed mask extends the pre-closure mask. -/
theorem computeBlockedMask_extends {level : LevelData}
    {levees : Option (List Bool)} {i : Nat}
    (hm : (rawBlocked level levees).getD i false = true) :
    (computeBlockedMask level levees true).getD i false = true := by
  unfold computeBlockedMask
  rw [if_pos rfl]
  exact sweep_mono hm

/-- The pre-closure mask entry of an in-range cell. -/
theorem rawBlocked_getD {level : LevelData} {levees : Option (List Bool)}
    {i : Nat} (hi : i < level.width * level.height) :
    (rawBlocked level levees).getD i false =
      (decide (level.tiles.getD i Tile.LAND = Tile.ROCK) ||
        (match levees with
         | some lv => lv.getD i false
         | none => false)) := by
  unfold rawBlocked
  rw [List.getD_eq_getElem?_getD, List.getElem?_map, List.getElem?_range hi]
  rfl

/-! ## Scoring lemmas -/

/-- 4-directional adjacency of two district cells (orthogonal neighbours,
diagonals excluded). -/
def adjDistrict (d e : District) : Prop :=
  (d.x = e.x ∧ (d.y = e.y + 1 ∨ e.y = d.y + 1)) ∨
    (d.y = e.y ∧ (d.x = e.x + 1 ∨ e.x = d.x + 1))

instance (d e : District) : Decidable (adjDistrict d e) := by
  unfold adjDistrict; infer_instance

/-- The score component of the first scoring loop is the per-category
bonus/penalty sum, independently of the map component. -/
theorem pass1_snd {w : Nat} {fl : List Bool} :
    ∀ (ds : List District) (acc : (Nat → Option DistrictType) × Int),
      (ds.foldl (pass1Body w fl) acc).2 =
        acc.2 +
          3 * (ds.countP (fun d =>
            decide (d.type = DistrictType.HOME) &&
              !(fl.getD (districtIndex w d) false)) : Int) +
          10 * (ds.countP (fun d =>
            decide (d.type = DistrictType.HOSPITAL) &&
              !(fl.getD (districtIndex w d) false)) : Int) -
          5 * (ds.countP (fun d =>
            decide (d.type = DistrictType.POWER_STATION) &&
              fl.getD (districtIndex w d) false) : Int) := by
  intro ds
  induction ds with
  | nil => intro acc; simp
  | cons d ds ih =>
      intro acc
      rw [List.foldl_cons, ih, List.countP_cons, List.countP_cons,
        List.countP_cons]
      rcases htype : d.type with _ | _ | _ <;>
        cases hfd : fl.getD (districtIndex w d) false <;>
        simp only [pass1Body, htype, hfd] <;>
        simp <;> ring

/-- The second scoring loop subtracts the per-flooded-power-station
adjacent-home counts. -/
theorem pass2_sum {w h : Nat} {fl : List Bool} {m : Nat → Option DistrictType} :
    ∀ (ds : List District) (init : Int),
      ds.foldl (pass2Body w h fl m) init =
        init - (ds.map (fun d =>
          if d.type = DistrictType.POWER_STATION ∧
              fl.getD (districtIndex w d) false = true then
            (adjacentHomeCount d.x d.y w h m : Int)
          else 0)).sum := by
  intro ds
  induction ds with
  | nil => intro init; simp
  | cons d ds ih =>
      intro init
      rw [List.foldl_cons, ih, List.map_cons, List.sum_cons]
      unfold pass2Body
      by_cases hcond : d.type = DistrictType.POWER_STATION ∧
          fl.getD (districtIndex w d) false = true
      · rw [if_pos hcond, if_pos hcond]; ring
      · rw [if_neg hcond, if_neg hcond]; ring

/-- What the district map of the first scoring loop holds at an index:
the type of the last district there, falling back to the accumulator. -/
theorem pass1_map_spec {w : Nat} {fl : List Bool} :
    ∀ (ds : List District) (acc : (Nat → Option DistrictType) × Int),
      (ds.map (districtIndex w)).Nodup →
      ∀ (j : Nat) (t : DistrictType),
        ((ds.foldl (pass1Body w fl) acc).1 j = some t ↔
          (∃ d ∈ ds, districtIndex w d = j ∧ d.type = t) ∨
          (acc.1 j = some t ∧ ∀ d ∈ ds, districtIndex w d ≠ j)) := by
  intro ds
  induction ds with
  | nil =>
      intro acc _ j t
      simp
  | cons d ds ih =>
      intro acc hnd j t
      rw [List.map_cons, List.nodup_cons] at hnd
      obtain ⟨hdnot, hnd'⟩ := hnd
      rw [List.foldl_cons, ih (pass1Body w fl acc d) hnd' j t]
      have hmap1 : (pass1Body w fl acc d).1 j =
          if j = districtIndex w d then some d.type else acc.1 j := rfl
      by_cases hjd : j = districtIndex w d
      · rw [hmap1, if_pos hjd]
        constructor
        · rintro (⟨e, he, hej, het⟩ | ⟨hsome, _⟩)
          · exact Or.inl ⟨e, List.mem_cons_of_mem d he, hej, het⟩
          · cases hsome
            exact Or.inl ⟨d, List.mem_cons_self d ds, hjd.symm, rfl⟩
        · rintro (⟨e, he, hej, het⟩ | ⟨_, hnone⟩)
          · rcases List.mem_cons.mp he with rfl | he
            · refine Or.inr ⟨by rw [het], ?_⟩
              intro e' he' hej'
              apply hdnot
              rw [← hjd, ← hej']
              exact List.mem_map_of_mem _ he'
            · exact Or.inl ⟨e, he, hej, het⟩
          · exact absurd hjd.symm (hnone d (List.mem_cons_self d ds))
      · rw [hmap1, if_neg hjd]
        constructor
        · rintro (⟨e, he, hej, het⟩ | ⟨hsome, hnone⟩)
          · exact Or.inl ⟨e, List.mem_cons_of_mem d he, hej, het⟩
          · refine Or.inr ⟨hsome, ?_⟩
            intro e he
            rcases List.mem_cons.mp he with rfl | he
            · exact fun hc => hjd hc.symm
            · exact hnone e he
        · rintro (⟨e, he, hej, het⟩ | ⟨hsome, hnone⟩)
          · rcases List.mem_cons.mp he with rfl | he
            · exact absurd hej.symm hjd
            · exact Or.inl ⟨e, he, hej, het⟩
          · exact Or.inr ⟨hsome, fun e he => hnone e (List.mem_cons_of_mem d he)⟩

/-- The completed district map of `scorePass1` holds `some t` at `j` iff some
district of type `t` sits on cell `j` (cells assumed pairwise distinct). -/
theorem scorePass1_map_spec {w : Nat} {fl : List Bool} {ds : List District}
    {init : Int} (hnd : (ds.map (districtIndex w)).Nodup) (j : Nat)
    (t : DistrictType) :
    ((scorePass1 w ds fl init).1 j = some t ↔
      ∃ d ∈ ds, districtIndex w d = j ∧ d.type = t) := by
  unfold scorePass1
  rw [pass1_map_spec ds _ hnd j t]
  simp

/-- Counting with a pairwise-distinct cell key: at most one district matches a
given cell, so the count is an existence indicator. -/
theorem countP_unique_idx {w : Nat} :
    ∀ (ds : List District), (ds.map (districtIndex w)).Nodup →
      ∀ (j : Nat) (P : District → Bool),
        ds.countP (fun e => P e && decide (districtIndex w e = j)) =
          if ∃ e ∈ ds, districtIndex w e = j ∧ P e = true then 1 else 0 := by
  intro ds
  induction ds with
  | nil =>
      intro _ j P
      simp
  | cons d ds ih =>
      intro hnd j P
      rw [List.map_cons, List.nodup_cons] at hnd
      obtain ⟨hdnot, hnd'⟩ := hnd
      rw [List.countP_cons, ih hnd' j P]
      by_cases hdj : districtIndex w d = j
      · have htail : ¬ ∃ e ∈ ds, districtIndex w e = j ∧ P e = true := by
          rintro ⟨e, he, hej, _⟩
          apply hdnot
          rw [hdj, ← hej]
          exact List.mem_map_of_mem _ he
        rw [if_neg htail, Nat.zero_add]
        by_cases hpd : P d = true
        · have hhead : (P d && decide (districtIndex w d = j)) = true := by
            rw [hpd, decide_eq_true hdj]
            rfl
          rw [hhead, if_pos rfl,
            if_pos (show ∃ e ∈ d :: ds, districtIndex w e = j ∧ P e = true from
              ⟨d, List.mem_cons_self d ds, hdj, hpd⟩)]
        · have hhead : (P d && decide (districtIndex w d = j)) = false := by
            cases hx : P d
            · rfl
            · exact absurd hx hpd
          have hcons : ¬ ∃ e ∈ d :: ds, districtIndex w e = j ∧ P e = true := by
            rintro ⟨e, he, hej, hpe⟩
            rcases List.mem_cons.mp he with rfl | he
            · exact hpd hpe
            · exact htail ⟨e, he, hej, hpe⟩
          rw [hhead, if_neg Bool.false_ne_true, if_neg hcons]
      · have hhead : (P d && decide (districtIndex w d = j)) = false := by
          rw [decide_eq_false hdj, Bool.and_false]
        rw [hhead, if_neg Bool.false_ne_true, Nat.add_zero]
        have hiff : (∃ e ∈ d :: ds, districtIndex w e = j ∧ P e = true) ↔
            (∃ e ∈ ds, districtIndex w e = j ∧ P e = true) := by
          constructor
          · rintro ⟨e, he, hej, hpe⟩
            rcases List.mem_cons.mp he with rfl | he
            · exact absurd hej hdj
            · exact ⟨e, he, hej, hpe⟩
          · rintro ⟨e, he, hej, hpe⟩
            exact ⟨e, List.mem_cons_of_mem d he, hej, hpe⟩
        rw [if_congr hiff rfl rfl]

theorem districtIndex_coords {w : Nat} {e : District} (hex : e.x < w)
    (y0 : Nat) {x0 : Nat} (hx0 : x0 < w) :
    districtIndex w e = y0 * w + x0 ↔ (e.x = x0 ∧ e.y = y0) := by
  constructor
  · intro hidx
    unfold districtIndex at hidx
    constructor
    · have h1 := coord_mod (w := w) e.y hex
      have h2 := coord_mod (w := w) y0 hx0
      rw [← h1, hidx, h2]
    · have h1 := coord_div (w := w) e.y hex
      have h2 := coord_div (w := w) y0 hx0
      rw [← h1, hidx, h2]
  · rintro ⟨hx, hy⟩
    unfold districtIndex
    rw [hx, hy]

theorem countP_or_split {α : Type} (P Q : α → Bool) :
    ∀ (l : List α), (∀ a ∈ l, ¬(P a = true ∧ Q a = true)) →
      l.countP (fun a => P a || Q a) = l.countP P + l.countP Q := by
  intro l
  induction l with
  | nil => intro _; simp
  | cons a l ih =>
      intro hdisj
      rw [List.countP_cons, List.countP_cons, List.countP_cons,
        ih (fun b hb => hdisj b (List.mem_cons_of_mem a hb))]
      cases hp : P a <;> cases hq : Q a
      · simp [hp, hq]
      · simp [hp, hq]
        omega
      · simp [hp, hq]
        omega
      · exact absurd ⟨hp, hq⟩ (hdisj a (List.mem_cons_self a l))

/-- A directional neighbour count against the completed district map: with
pairwise distinct district cells, counting the `HOME` districts at one fixed
coordinate equals asking the map at that coordinate's index. -/
theorem dir_count {w : Nat} {fl : List Bool} {ds : List District} {init : Int}
    (hnd : (ds.map (districtIndex w)).Nodup)
    (hin : ∀ e ∈ ds, e.x < w) {ux uy : Nat} (hux : ux < w) :
    ds.countP (fun e => decide (e.type = DistrictType.HOME) &&
        decide (e.x = ux ∧ e.y = uy)) =
      if (scorePass1 w ds fl init).1 (uy * w + ux) = some DistrictType.HOME
      then 1 else 0 := by
  have hcong : ds.countP (fun e => decide (e.type = DistrictType.HOME) &&
      decide (e.x = ux ∧ e.y = uy)) =
      ds.countP (fun e => decide (e.type = DistrictType.HOME) &&
        decide (districtIndex w e = uy * w + ux)) := by
    apply List.countP_congr
    intro e he
    have hi := districtIndex_coords (hin e he) uy hux
    constructor
    · intro hx
      rw [Bool.and_eq_true] at hx ⊢
      exact ⟨hx.1, decide_eq_true (hi.mpr (of_decide_eq_true hx.2))⟩
    · intro hx
      rw [Bool.and_eq_true] at hx ⊢
      exact ⟨hx.1, decide_eq_true (hi.mp (of_decide_eq_true hx.2))⟩
  rw [hcong, countP_unique_idx ds hnd (uy * w + ux)
    (fun e => decide (e.type = DistrictType.HOME))]
  refine if_congr ?_ rfl rfl
  rw [scorePass1_map_spec hnd (uy * w + ux) DistrictType.HOME]
  constructor
  · rintro ⟨e, he, hej, hpe⟩
    exact ⟨e, he, hej, of_decide_eq_true hpe⟩
  · rintro ⟨e, he, hej, hpe⟩
    exact ⟨e, he, hej, decide_eq_true hpe⟩

/-- With pairwise-distinct in-bounds district cells, the source's
`adjacentHomeCount` read from the completed district map counts exactly the
districts of type `HOME` on 4-adjacent cells. -/
theorem adjacentHomeCount_eq {w h : Nat} {fl : List Bool} {ds : List District}
    {init : Int} (hnd : (ds.map (districtIndex w)).Nodup)
    (hin : ∀ e ∈ ds, e.x < w ∧ e.y < h) {d : District}
    (hdx : d.x < w) :
    adjacentHomeCount d.x d.y w h (scorePass1 w ds fl init).1 =
      ds.countP (fun e => decide (e.type = DistrictType.HOME) &&
        decide (adjDistrict d e)) := by
  have hinx : ∀ e ∈ ds, e.x < w := fun e he => (hin e he).1
  -- split the adjacency count into the four directions
  have hsplit : ds.countP (fun e => decide (e.type = DistrictType.HOME) &&
      decide (adjDistrict d e)) =
      ds.countP (fun e => decide (e.type = DistrictType.HOME) &&
        decide (e.y = d.y ∧ e.x + 1 = d.x)) +
      ds.countP (fun e => decide (e.type = DistrictType.HOME) &&
        decide (e.y = d.y ∧ d.x + 1 = e.x)) +
      ds.countP (fun e => decide (e.type = DistrictType.HOME) &&
        decide (e.x = d.x ∧ e.y + 1 = d.y)) +
      ds.countP (fun e => decide (e.type = DistrictType.HOME) &&
        decide (e.x = d.x ∧ d.y + 1 = e.y)) := by
    have hcong : ds.countP (fun e => decide (e.type = DistrictType.HOME) &&
        decide (adjDistrict d e)) =
        ds.countP (fun e =>
          (decide (e.type = DistrictType.HOME) &&
            decide (e.y = d.y ∧ e.x + 1 = d.x)) ||
          ((decide (e.type = DistrictType.HOME) &&
            decide (e.y = d.y ∧ d.x + 1 = e.x)) ||
          ((decide (e.type = DistrictType.HOME) &&
            decide (e.x = d.x ∧ e.y + 1 = d.y)) ||
          (decide (e.type = DistrictType.HOME) &&
            decide (e.x = d.x ∧ d.y + 1 = e.y))))) := by
      apply List.countP_congr
      intro e _
      by_cases ht : e.type = DistrictType.HOME
      · simp only [ht, adjDistrict, Bool.and_eq_true, Bool.or_eq_true,
          decide_eq_true_eq, eq_self_iff_true, true_and]
        omega
      · simp [ht]
    rw [hcong, countP_or_split _ _ ds (by
        intro e _
        simp only [Bool.and_eq_true, Bool.or_eq_true, decide_eq_true_eq]
        rintro ⟨⟨_, h1⟩, ⟨_, h2⟩ | ⟨_, h2⟩ | ⟨_, h2⟩⟩ <;> omega),
      countP_or_split _ _ ds (by
        intro e _
        simp only [Bool.and_eq_true, Bool.or_eq_true, decide_eq_true_eq]
        rintro ⟨⟨_, h1⟩, ⟨_, h2⟩ | ⟨_, h2⟩⟩ <;> omega),
      countP_or_split _ _ ds (by
        intro e _
        simp only [Bool.and_eq_true, decide_eq_true_eq]
        rintro ⟨⟨_, h1⟩, ⟨_, h2⟩⟩
        omega)]
    ring
  rw [hsplit]
  unfold adjacentHomeCount
  -- west
  have hW : ds.countP (fun e => decide (e.type = DistrictType.HOME) &&
      decide (e.y = d.y ∧ e.x + 1 = d.x)) =
      (if 0 < d.x ∧ (scorePass1 w ds fl init).1 (d.y * w + (d.x - 1)) =
          some DistrictType.HOME then 1 else 0) := by
    by_cases hg : 0 < d.x
    · have hcong : ds.countP (fun e => decide (e.type = DistrictType.HOME) &&
          decide (e.y = d.y ∧ e.x + 1 = d.x)) =
          ds.countP (fun e => decide (e.type = DistrictType.HOME) &&
            decide (e.x = d.x - 1 ∧ e.y = d.y)) := by
        apply List.countP_congr
        intro e _
        simp only [Bool.and_eq_true, decide_eq_true_eq]
        constructor <;> rintro ⟨h1, h2⟩ <;> exact ⟨h1, by omega⟩
      rw [hcong,
        (dir_count hnd hinx (show d.x - 1 < w by omega) :
          _ = if (scorePass1 w ds fl init).1 (d.y * w + (d.x - 1)) =
            some DistrictType.HOME then 1 else 0)]
      exact if_congr (Iff.intro (fun hx => ⟨hg, hx⟩) And.right) rfl rfl
    · have hz : ds.countP (fun e => decide (e.type = DistrictType.HOME) &&
          decide (e.y = d.y ∧ e.x + 1 = d.x)) = 0 := by
        rw [List.countP_eq_zero]
        intro e _
        simp only [Bool.and_eq_true, decide_eq_true_eq, not_and]
        intro _
        omega
      rw [hz, if_neg (by rintro ⟨hc, _⟩; exact hg hc)]
  -- east
  have hE : ds.countP (fun e => decide (e.type = DistrictType.HOME) &&
      decide (e.y = d.y ∧ d.x + 1 = e.x)) =
      (if d.x < w - 1 ∧ (scorePass1 w ds fl init).1 (d.y * w + (d.x + 1)) =
          some DistrictType.HOME then 1 else 0) := by
    by_cases hg : d.x < w - 1
    · have hcong : ds.countP (fun e => decide (e.type = DistrictType.HOME) &&
          decide (e.y = d.y ∧ d.x + 1 = e.x)) =
          ds.countP (fun e => decide (e.type = DistrictType.HOME) &&
            decide (e.x = d.x + 1 ∧ e.y = d.y)) := by
        apply List.countP_congr
        intro e _
        simp only [Bool.and_eq_true, decide_eq_true_eq]
        constructor <;> rintro ⟨h1, h2⟩ <;> exact ⟨h1, by omega⟩
      rw [hcong,
        (dir_count hnd hinx (show d.x + 1 < w by omega) :
          _ = if (scorePass1 w ds fl init).1 (d.y * w + (d.x + 1)) =
            some DistrictType.HOME then 1 else 0)]
      exact if_congr (Iff.intro (fun hx => ⟨hg, hx⟩) And.right) rfl rfl
    · have hz : ds.countP (fun e => decide (e.type = DistrictType.HOME) &&
          decide (e.y = d.y ∧ d.x + 1 = e.x)) = 0 := by
        rw [List.countP_eq_zero]
        intro e he
        have hex := hinx e he
        simp only [Bool.and_eq_true, decide_eq_true_eq, not_and]
        intro _
        omega
      rw [hz, if_neg (by rintro ⟨hc, _⟩; exact hg hc)]
  -- north
  have hN : ds.countP (fun e => decide (e.type = DistrictType.HOME) &&
      decide (e.x = d.x ∧ e.y + 1 = d.y)) =
      (if 0 < d.y ∧ (scorePass1 w ds fl init).1 ((d.y - 1) * w + d.x) =
          some DistrictType.HOME then 1 else 0) := by
    by_cases hg : 0 < d.y
    · have hcong : ds.countP (fun e => decide (e.type = DistrictType.HOME) &&
          decide (e.x = d.x ∧ e.y + 1 = d.y)) =
          ds.countP (fun e => decide (e.type = DistrictType.HOME) &&
            decide (e.x = d.x ∧ e.y = d.y - 1)) := by
        apply List.countP_congr
        intro e _
        simp only [Bool.and_eq_true, decide_eq_true_eq]
        constructor <;> rintro ⟨h1, h2⟩ <;> exact ⟨h1, by omega⟩
      rw [hcong,
        (dir_count hnd hinx hdx :
          _ = if (scorePass1 w ds fl init).1 ((d.y - 1) * w + d.x) =
            some DistrictType.HOME then 1 else 0)]
      exact if_congr (Iff.intro (fun hx => ⟨hg, hx⟩) And.right) rfl rfl
    · have hz : ds.countP (fun e => decide (e.type = DistrictType.HOME) &&
          decide (e.x = d.x ∧ e.y + 1 = d.y)) = 0 := by
        rw [List.countP_eq_zero]
        intro e _
        simp only [Bool.and_eq_true, decide_eq_true_eq, not_and]
        intro _
        omega
      rw [hz, if_neg (by rintro ⟨hc, _⟩; exact hg hc)]
  -- south
  have hS : ds.countP (fun e => decide (e.type = DistrictType.HOME) &&
      decide (e.x = d.x ∧ d.y + 1 = e.y)) =
      (if d.y < h - 1 ∧ (scorePass1 w ds fl init).1 ((d.y + 1) * w + d.x) =
          some DistrictType.HOME then 1 else 0) := by
    by_cases hg : d.y < h - 1
    · have hcong : ds.countP (fun e => decide (e.type = DistrictType.HOME) &&
          decide (e.x = d.x ∧ d.y + 1 = e.y)) =
          ds.countP (fun e => decide (e.type = DistrictType.HOME) &&
            decide (e.x = d.x ∧ e.y = d.y + 1)) := by
        apply List.countP_congr
        intro e _
        simp only [Bool.and_eq_true, decide_eq_true_eq]
        constructor <;> rintro ⟨h1, h2⟩ <;> exact ⟨h1, by omega⟩
      rw [hcong,
        (dir_count hnd hinx hdx :
          _ = if (scorePass1 w ds fl init).1 ((d.y + 1) * w + d.x) =
            some DistrictType.HOME then 1 else 0)]
      exact if_congr (Iff.intro (fun hx => ⟨hg, hx⟩) And.right) rfl rfl
    · have hz : ds.countP (fun e => decide (e.type = DistrictType.HOME) &&
          decide (e.x = d.x ∧ d.y + 1 = e.y)) = 0 := by
        rw [List.countP_eq_zero]
        intro e he
        have hey := (hin e he).2
        simp only [Bool.and_eq_true, decide_eq_true_eq, not_and]
        intro _
        omega
      rw [hz, if_neg (by rintro ⟨hc, _⟩; exact hg hc)]
  rw [hW, hE, hN, hS]

/-! ## Parser lemmas -/

theorem mapExcept_ok_iff {α β : Type} (f : α → Except String β) :
    ∀ (l : List α),
      (∃ ys, mapExcept f l = Except.ok ys) ↔ ∀ a ∈ l, ∃ y, f a = Except.ok y := by
  intro l
  induction l with
  | nil =>
      constructor
      · intro _ a ha
        exact absurd ha (List.not_mem_nil a)
      · intro _
        exact ⟨[], rfl⟩
  | cons a l ih =>
      constructor
      · rintro ⟨ys, hys⟩
        unfold mapExcept at hys
        intro b hb
        rcases List.mem_cons.mp hb with rfl | hb
        · cases hfa : f b with
          | error e => rw [hfa] at hys; cases hys
          | ok y => exact ⟨y, rfl⟩
        · cases hfa : f a with
          | error e => rw [hfa] at hys; cases hys
          | ok y =>
              rw [hfa] at hys
              cases hrest : mapExcept f l with
              | error e => rw [hrest] at hys; cases hys
              | ok bs => exact (ih.mp ⟨bs, hrest⟩) b hb
      · intro hall
        obtain ⟨y, hy⟩ := hall a (List.mem_cons_self a l)
        obtain ⟨ys, hys⟩ := ih.mpr (fun b hb => hall b (List.mem_cons_of_mem a hb))
        refine ⟨y :: ys, ?_⟩
        unfold mapExcept
        rw [hy, hys]

theorem charToTile_ok_iff (c : Char) :
    (∃ t, charToTile c = some t) ↔ c ∈ ['L', 'W', 'R', 'O'] := by
  unfold charToTile
  by_cases h1 : c = 'L'
  · simp [h1]
  · by_cases h2 : c = 'W'
    · simp [h2]
    · by_cases h3 : c = 'R'
      · simp [h3]
      · by_cases h4 : c = 'O'
        · simp [h4]
        · simp [h1, h2, h3, h4]

theorem parseRow_ok_iff (width : Int) (row : String) :
    (∃ ts, parseRow width row = Except.ok ts) ↔
      ((row.length : Int) = width ∧ ∀ c ∈ row.toList, c ∈ ['L', 'W', 'R', 'O']) := by
  unfold parseRow
  by_cases hlen : (row.length : Int) ≠ width
  · rw [if_pos hlen]
    constructor
    · rintro ⟨ts, hts⟩
      cases hts
    · rintro ⟨hl, _⟩
      exact absurd hl hlen
  · rw [if_neg hlen]
    rw [mapExcept_ok_iff]
    constructor
    · intro hall
      refine ⟨Decidable.not_not.mp hlen, ?_⟩
      intro c hc
      obtain ⟨t, ht⟩ := hall c hc
      refine (charToTile_ok_iff c).mp ⟨t, ?_⟩
      revert ht
      cases hx : charToTile c with
      | none => intro ht; cases ht
      | some u => intro ht; cases ht; rfl
    · rintro ⟨_, hall⟩
      intro c hc
      obtain ⟨t, ht⟩ := (charToTile_ok_iff c).mpr (hall c hc)
      exact ⟨t, by rw [ht]⟩

/-- Success condition of `parseLevel`: exactly the row-count, row-width and
alphabet checks; the dimensions themselves are never sign-checked. -/
theorem parseOk_iff (raw : RawLevel) (date : String) :
    parseOk raw date = true ↔
      ((raw.tiles.length : Int) = (rawDims raw.size).2 ∧
        ∀ row ∈ raw.tiles, (row.length : Int) = (rawDims raw.size).1 ∧
          ∀ c ∈ row.toList, c ∈ ['L', 'W', 'R', 'O']) := by
  unfold parseOk parseLevel
  by_cases hlen : (raw.tiles.length : Int) ≠ (rawDims raw.size).2
  · rw [if_pos hlen]
    constructor
    · intro hc
      cases hc
    · rintro ⟨hl, _⟩
      exact absurd hl hlen
  · rw [if_neg hlen]
    cases hrows : mapExcept (parseRow (rawDims raw.size).1) raw.tiles with
    | error e =>
        constructor
        · intro hc
          cases hc
        · rintro ⟨_, hall⟩
          obtain ⟨ys, hys⟩ := (mapExcept_ok_iff (parseRow (rawDims raw.size).1)
            raw.tiles).mpr (fun row hrow =>
              (parseRow_ok_iff (rawDims raw.size).1 row).mpr (hall row hrow))
          rw [hys] at hrows
          cases hrows
    | ok rows =>
        constructor
        · intro _
          refine ⟨Decidable.not_not.mp hlen, ?_⟩
          intro row hrow
          exact (parseRow_ok_iff (rawDims raw.size).1 row).mp
            ((mapExcept_ok_iff (parseRow (rawDims raw.size).1) raw.tiles).mp
              ⟨rows, hrows⟩ row hrow)
        · intro _
          rfl

/-! ## Reachability from the grid boundary, and the containment iff -/

/-- Reachability from the non-blocked boundary cells (the seeds of
`computeReachableFromBoundary`). -/
def BoundaryReach (w h : Nat) (blocked : List Bool) (i : Nat) : Prop :=
  ReachFrom w h blocked (fun j => boundaryB w h j) i

/-- `computeReachableFromBoundary` computes `BoundaryReach`. -/
theorem computeReachableFromBoundary_iff (level : LevelData)
    (blocked : List Bool) (c : Nat) :
    (computeReachableFromBoundary level blocked).getD c false = true ↔
      BoundaryReach level.width level.height blocked c := by
  unfold computeReachableFromBoundary BoundaryReach
  exact bfsSearch_marked_iff c

/-- The containment test holds iff some `HOME` district is enclosed now but
was open without levees. -/
theorem detect_iff (level : LevelData) (levees : List Bool) :
    detectContainedArea level levees = true ↔
      ∃ d ∈ level.districts, d.type = DistrictType.HOME ∧
        ¬ BoundaryReach level.width level.height
            (computeBlockedMask level (some levees) true)
            (districtIndex level.width d) ∧
          BoundaryReach level.width level.height
            (computeBlockedMask level none false)
            (districtIndex level.width d) := by
  unfold detectContainedArea
  rw [List.any_eq_true]
  constructor
  · rintro ⟨d, hd, hb⟩
    by_cases ht : d.type = DistrictType.HOME
    · rw [if_pos ht, Bool.and_eq_true, Bool.not_eq_true'] at hb
      refine ⟨d, hd, ht, ?_, ?_⟩
      · intro hr
        rw [← computeReachableFromBoundary_iff] at hr
        rw [hr] at hb
        cases hb.1
      · exact (computeReachableFromBoundary_iff _ _ _).mp hb.2
    · rw [if_neg ht] at hb
      cases hb
  · rintro ⟨d, hd, ht, hnr, hr⟩
    refine ⟨d, hd, ?_⟩
    rw [if_pos ht, Bool.and_eq_true, Bool.not_eq_true']
    constructor
    · cases hx : (computeReachableFromBoundary level
          (computeBlockedMask level (some levees) true)).getD
            (districtIndex level.width d) false
      · rfl
      · exact absurd ((computeReachableFromBoundary_iff _ _ _).mp hx) hnr
    · exact (computeReachableFromBoundary_iff _ _ _).mpr hr

/-- In the active case, `runSimulation` is the worklist search plus the two
scoring passes. -/
theorem runSimulation_eq_active (level : LevelData) (levees : List Bool)
    (hact : detectContainedArea level levees = true) :
    runSimulation level levees =
      { flooded := (bfsSearch level.width level.height
          (computeBlockedMask level (some levees) true) (floodSeed level)).marked,
        floodOrder := (bfsSearch level.width level.height
          (computeBlockedMask level (some levees) true) (floodSeed level)).order,
        score := scorePass2 level.width level.height level.districts
          (bfsSearch level.width level.height
            (computeBlockedMask level (some levees) true) (floodSeed level)).marked
          (scorePass1 level.width level.districts
            (bfsSearch level.width level.height
              (computeBlockedMask level (some levees) true) (floodSeed level)).marked
            (((List.range (level.width * level.height)).countP (fun i =>
              decide (level.tiles.getD i Tile.LAND = Tile.LAND) &&
                !((bfsSearch level.width level.height
                  (computeBlockedMask level (some levees) true)
                  (floodSeed level)).marked.getD i false) &&
                !(levees.getD i false)) : Nat) : Int)).1
          (scorePass1 level.width level.districts
            (bfsSearch level.width level.height
              (computeBlockedMask level (some levees) true) (floodSeed level)).marked
            (((List.range (level.width * level.height)).countP (fun i =>
              decide (level.tiles.getD i Tile.LAND = Tile.LAND) &&
                !((bfsSearch level.width level.height
                  (computeBlockedMask level (some levees) true)
                  (floodSeed level)).marked.getD i false) &&
                !(levees.getD i false)) : Nat) : Int)).2,
        dryLand := (List.range (level.width * level.height)).countP (fun i =>
          decide (level.tiles.getD i Tile.LAND = Tile.LAND) &&
            !((bfsSearch level.width level.height
              (computeBlockedMask level (some levees) true)
              (floodSeed level)).marked.getD i false) &&
            !(levees.getD i false)),
        waterActive := true,
        hasContainedArea := true } := by
  unfold runSimulation bfsSearch
  rw [hact]
  rfl

/-- In the inactive case, `runSimulation` returns the inert result. -/
theorem runSimulation_eq_inactive (level : LevelData) (levees : List Bool)
    (hact : detectContainedArea level levees = false) :
    runSimulation level levees =
      { flooded := List.replicate (level.width * level.height) false,
        floodOrder := [], score := 0, dryLand := 0, waterActive := false,
        hasContainedArea := false } := by
  unfold runSimulation
  rw [hact]
  rfl

/-! ## Concrete example levels -/

/-- A 3×3 all-`LAND` level with one `HOME` district at the centre `(1, 1)`. -/
def exLevelH : LevelData :=
  { date := "2024-01-01", width := 3, height := 3, wallBudget := 5,
    tiles := [Tile.LAND, Tile.LAND, Tile.LAND, Tile.LAND, Tile.LAND,
      Tile.LAND, Tile.LAND, Tile.LAND, Tile.LAND],
    districts := [{ type := DistrictType.HOME, x := 1, y := 1 }],
    notes := none }

/-- A levee mask for `exLevelH` with a single levee on the centre cell. -/
def exLeveesC : List Bool := (List.replicate 9 false).set 4 true

/-- A 3×2 all-`LAND` level with no districts. -/
def cexLevel3 : LevelData :=
  { date := "2024-01-01", width := 3, height := 2, wallBudget := 5,
    tiles := [Tile.LAND, Tile.LAND, Tile.LAND, Tile.LAND, Tile.LAND,
      Tile.LAND],
    districts := [], notes := none }

/-- Levees at cells `(0,0)`, `(1,0)` and `(2,1)` of `cexLevel3`. -/
def cexLevees3 : List Bool := [true, true, false, false, false, true]

/-- A 3×3 level with `ROCK` at `(1,0)` and `(0,1)` and a `HOME` district in
the corner `(0,0)`: the terrain's own corner closure encloses the corner. -/
def cexLevel4 : LevelData :=
  { date := "2024-01-01", width := 3, height := 3, wallBudget := 5,
    tiles := [Tile.LAND, Tile.ROCK, Tile.LAND, Tile.ROCK, Tile.LAND,
      Tile.LAND, Tile.LAND, Tile.LAND, Tile.LAND],
    districts := [{ type := DistrictType.HOME, x := 0, y := 0 }],
    notes := none }

/-! ## The claims -/

/-- C1: containment-transition detection. For every level and levee mask,
`detectContainedArea` returns `true` iff some `HOME` district's cell is not
reachable from the grid boundary under the barrier-inclusive blocked mask
(`ROCK` plus levees, corner closure applied) and is reachable from the
boundary under the barriers-only blocked mask (`ROCK` alone, no closure). -/
theorem claim_C1 (level : LevelData) (levees : List Bool) :
    detectContainedArea level levees = true ↔
      ∃ d ∈ level.districts, d.type = DistrictType.HOME ∧
        ¬ BoundaryReach level.width level.height
            (computeBlockedMask level (some levees) true)
            (districtIndex level.width d) ∧
          BoundaryReach level.width level.height
            (computeBlockedMask level none false)
            (districtIndex level.width d) :=
  detect_iff level levees

/-- C2: the connectivity oracle marks a cell reachable iff a 4-connected path
of non-blocked cells joins it to a non-blocked cell of the grid boundary
(row 0, last row, column 0 or last column); a non-blocked boundary cell is
reachable by the one-cell path. -/
theorem claim_C2 (level : LevelData) (blocked : List Bool)
    (_hw : 0 < level.width) (_hh : 0 < level.height)
    (_hlen : blocked.length = level.width * level.height)
    (c : Nat) (_hc : c < level.width * level.height) :
    (computeReachableFromBoundary level blocked).getD c false = true ↔
      ∃ p, UnblockedPath level.width level.height blocked p ∧
        p.head? = some c ∧
        ∃ e, p.getLast? = some e ∧
          boundaryB level.width level.height e = true := by
  unfold computeReachableFromBoundary
  rw [bfsSearch_marked_iff c]
  exact reachFrom_iff_path c

/-- C2 witness: the oracle contract instantiated on a concrete 3×3 level with
an all-clear mask at the corner cell. -/
theorem claim_C2_witness :
    0 < exLevelH.width ∧ 0 < exLevelH.height ∧
      (List.replicate 9 false).length = exLevelH.width * exLevelH.height ∧
      0 < exLevelH.width * exLevelH.height ∧
      ((computeReachableFromBoundary exLevelH
          (List.replicate 9 false)).getD 0 false = true ↔
        ∃ p, UnblockedPath exLevelH.width exLevelH.height
            (List.replicate 9 false) p ∧
          p.head? = some 0 ∧
          ∃ e, p.getLast? = some e ∧
            boundaryB exLevelH.width exLevelH.height e = true) :=
  ⟨by decide, by decide, by decide, by decide,
    claim_C2 exLevelH (List.replicate 9 false) (by decide) (by decide)
      (by decide) 0 (by decide)⟩

/-- C3 counterexample: on the 3×2 level with levees at `(0,0)`, `(1,0)` and
`(2,1)`, the returned mask still contains a 2×2 block (cells 0, 1, 3, 4)
whose main diagonal (cells 0 and 4) is blocked while the anti-diagonal cell 3
is unblocked, and a second sweep changes the mask. -/
theorem claim_C3_counterexample :
    WFLevel cexLevel3 ∧
      cexLevees3.length = cexLevel3.width * cexLevel3.height ∧
      (computeBlockedMask cexLevel3 (some cexLevees3) true).getD 0 false = true ∧
      (computeBlockedMask cexLevel3 (some cexLevees3) true).getD 4 false = true ∧
      (computeBlockedMask cexLevel3 (some cexLevees3) true).getD 3 false = false ∧
      sweep cexLevel3.width cexLevel3.height
          (computeBlockedMask cexLevel3 (some cexLevees3) true) ≠
        computeBlockedMask cexLevel3 (some cexLevees3) true := by
  decide

/-- C3 amended: the closure sweep is monotone, it only ever adds blocks — the
returned mask extends the pre-closure mask, and any further sweep only extends
the returned mask — but the single row-major sweep need not reach the closure
fixed point (see the counterexample). -/
theorem claim_C3_amended (level : LevelData) (levees : Option (List Bool))
    (i : Nat) :
    ((rawBlocked level levees).getD i false = true →
      (computeBlockedMask level levees true).getD i false = true) ∧
      ((computeBlockedMask level levees true).getD i false = true →
        (sweep level.width level.height
          (computeBlockedMask level levees true)).getD i false = true) :=
  ⟨computeBlockedMask_extends, sweep_mono⟩

/-- C3 amended, witness: the monotonicity instantiated at cell 0 of the
counterexample level. -/
theorem claim_C3_amended_witness :
    (rawBlocked cexLevel3 (some cexLevees3)).getD 0 false = true ∧
      (computeBlockedMask cexLevel3 (some cexLevees3) true).getD 0 false = true ∧
      (sweep cexLevel3.width cexLevel3.height
        (computeBlockedMask cexLevel3 (some cexLevees3) true)).getD 0 false = true :=
  ⟨by decide,
    (claim_C3_amended cexLevel3 (some cexLevees3) 0).1 (by decide),
    (claim_C3_amended cexLevel3 (some cexLevees3) 0).2
      ((claim_C3_amended cexLevel3 (some cexLevees3) 0).1 (by decide))⟩

/-- C4 counterexample: on `cexLevel4` the `HOME` district at the corner cell 0
is boundary-reachable in the unbarricaded grid (rocks only, no closure), yet
containment detection fires with the all-zero levee mask, because the corner
closure of the terrain alone newly encloses the corner. -/
theorem claim_C4_counterexample :
    WFLevel cexLevel4 ∧
      BoundaryReach cexLevel4.width cexLevel4.height
        (computeBlockedMask cexLevel4 none false) 0 ∧
      detectContainedArea cexLevel4
        (List.replicate (cexLevel4.width * cexLevel4.height) false) = true :=
  ⟨by decide,
    ReachFrom.seed 0 (by decide) (by decide) (by decide),
    by decide⟩

/-- C4 amended: with an all-zero levee mask, containment detection returns
`false` whenever every `HOME` district is boundary-reachable under the
corner-closure-applied terrain mask (reachability under the closure-free rock
mask is not enough, as the counterexample shows). -/
theorem claim_C4_amended (level : LevelData)
    (hall : ∀ d ∈ level.districts, d.type = DistrictType.HOME →
      BoundaryReach level.width level.height
        (computeBlockedMask level
          (some (List.replicate (level.width * level.height) false)) true)
        (districtIndex level.width d)) :
    detectContainedArea level
      (List.replicate (level.width * level.height) false) = false := by
  cases hx : detectContainedArea level
      (List.replicate (level.width * level.height) false)
  · rfl
  · exfalso
    obtain ⟨d, hd, ht, hnr, _⟩ := (detect_iff level _).mp hx
    exact hnr (hall d hd ht)

/-- C4 amended, witness: on the all-open 3×3 level every `HOME` district is
closure-reachable, and detection with no levees indeed returns `false`. -/
theorem claim_C4_amended_witness :
    detectContainedArea exLevelH
      (List.replicate (exLevelH.width * exLevelH.height) false) = false := by
  refine claim_C4_amended exLevelH ?_
  intro d hd _
  have hd1 : d = { type := DistrictType.HOME, x := 1, y := 1 } :=
    List.mem_singleton.mp hd
  subst hd1
  exact ReachFrom.step 1 4
    (ReachFrom.seed 1 (by decide) (by decide) (by decide))
    (by decide) (by decide)

/-- The score component of the first scoring loop, stated for `scorePass1`. -/
theorem scorePass1_snd {w : Nat} {fl : List Bool} (ds : List District)
    (init : Int) :
    (scorePass1 w ds fl init).2 =
      init +
        3 * (ds.countP (fun d =>
          decide (d.type = DistrictType.HOME) &&
            !(fl.getD (districtIndex w d) false)) : Int) +
        10 * (ds.countP (fun d =>
          decide (d.type = DistrictType.HOSPITAL) &&
            !(fl.getD (districtIndex w d) false)) : Int) -
        5 * (ds.countP (fun d =>
          decide (d.type = DistrictType.POWER_STATION) &&
            fl.getD (districtIndex w d) false) : Int) :=
  pass1_snd ds (fun _ => none, init)

/-- The second scoring loop, stated for `scorePass2`. -/
theorem scorePass2_eq {w h : Nat} {fl : List Bool}
    {m : Nat → Option DistrictType} (ds : List District) (init : Int) :
    scorePass2 w h ds fl m init =
      init - (ds.map (fun d =>
        if d.type = DistrictType.POWER_STATION ∧
            fl.getD (districtIndex w d) false = true then
          (adjacentHomeCount d.x d.y w h m : Int)
        else 0)).sum :=
  pass2_sum ds init

/-- C5: with flooding active, the flood order is a permutation of exactly the
flooded cell set (hence of equal length), and every entry is a seed (a
non-blocked boundary or `WATER` cell) or has a 4-neighbour strictly earlier in
the order. -/
theorem claim_C5 (level : LevelData) (levees : List Bool)
    (hact : detectContainedArea level levees = true) :
    List.Perm (runSimulation level levees).floodOrder
        ((List.range (level.width * level.height)).filter
          (fun i => (runSimulation level levees).flooded.getD i false)) ∧
      (runSimulation level levees).floodOrder.length =
        ((List.range (level.width * level.height)).filter
          (fun i => (runSimulation level levees).flooded.getD i false)).length ∧
      ∀ (k c : Nat), (runSimulation level levees).floodOrder[k]? = some c →
        (floodSeed level c = true ∧
          (computeBlockedMask level (some levees) true).getD c false = false) ∨
        ∃ (m j : Nat), m < k ∧
          (runSimulation level levees).floodOrder[m]? = some j ∧
          j ∈ nbrs level.width level.height c := by
  rw [runSimulation_eq_active level levees hact]
  obtain ⟨hInv, _, _, _⟩ := @bfsSearch_spec level.width level.height
    (computeBlockedMask level (some levees) true) (floodSeed level)
  have hperm : List.Perm
      (bfsSearch level.width level.height
        (computeBlockedMask level (some levees) true) (floodSeed level)).order
      ((List.range (level.width * level.height)).filter
        (fun i => (bfsSearch level.width level.height
          (computeBlockedMask level (some levees) true)
          (floodSeed level)).marked.getD i false)) := by
    rw [List.perm_ext_iff_of_nodup hInv.nodup
      (List.Nodup.filter _ (List.nodup_range _))]
    intro a
    rw [List.mem_filter, List.mem_range]
    constructor
    · intro ha
      exact ⟨hInv.bound a ha, (hInv.markedIff a).mpr ha⟩
    · rintro ⟨_, hm⟩
      exact (hInv.markedIff a).mp hm
  refine ⟨hperm, hperm.length_eq, ?_⟩
  intro k c hk
  rcases hInv.layered k c hk with hs | ⟨m, j, hm, hmj, hjn⟩
  · exact Or.inl ⟨hs, hInv.notBlocked c (List.getElem?_mem hk)⟩
  · exact Or.inr ⟨m, j, hm, hmj, hjn⟩

/-- C5 witness: the flood-order properties on the 3×3 level whose centre
`HOME` has just been enclosed by a single (invalidly placed) centre levee. -/
theorem claim_C5_witness :
    detectContainedArea exLevelH exLeveesC = true ∧
      (List.Perm (runSimulation exLevelH exLeveesC).floodOrder
          ((List.range (exLevelH.width * exLevelH.height)).filter
            (fun i => (runSimulation exLevelH exLeveesC).flooded.getD i false)) ∧
        (runSimulation exLevelH exLeveesC).floodOrder.length =
          ((List.range (exLevelH.width * exLevelH.height)).filter
            (fun i =>
              (runSimulation exLevelH exLeveesC).flooded.getD i false)).length ∧
        ∀ (k c : Nat),
          (runSimulation exLevelH exLeveesC).floodOrder[k]? = some c →
          (floodSeed exLevelH c = true ∧
            (computeBlockedMask exLevelH (some exLeveesC) true).getD c false =
              false) ∨
          ∃ (m j : Nat), m < k ∧
            (runSimulation exLevelH exLeveesC).floodOrder[m]? = some j ∧
            j ∈ nbrs exLevelH.width exLevelH.height c) :=
  ⟨by decide, claim_C5 exLevelH exLeveesC (by decide)⟩

/-- C6: with flooding active and pairwise-distinct in-bounds district cells,
`dryLand` counts the `LAND` cells that are neither flooded nor levee-occupied,
and the score is `dryLand` plus 3 per unflooded `HOME`, plus 10 per unflooded
`HOSPITAL`, minus 5 per flooded `POWER_STATION`, minus one per 4-adjacent
`HOME` district of each flooded `POWER_STATION`. -/
theorem claim_C6 (level : LevelData) (levees : List Bool) (hwf : WFLevel level)
    (hnd : (level.districts.map (districtIndex level.width)).Nodup)
    (hact : detectContainedArea level levees = true) :
    (runSimulation level levees).dryLand =
      ((List.range (level.width * level.height)).filter (fun i =>
        decide (level.tiles.getD i Tile.LAND = Tile.LAND) &&
          !((runSimulation level levees).flooded.getD i false) &&
          !(levees.getD i false))).length ∧
    (runSimulation level levees).score =
      ((runSimulation level levees).dryLand : Int) +
        3 * (level.districts.countP (fun d =>
          decide (d.type = DistrictType.HOME) &&
            !((runSimulation level levees).flooded.getD
              (districtIndex level.width d) false)) : Int) +
        10 * (level.districts.countP (fun d =>
          decide (d.type = DistrictType.HOSPITAL) &&
            !((runSimulation level levees).flooded.getD
              (districtIndex level.width d) false)) : Int) -
        5 * (level.districts.countP (fun d =>
          decide (d.type = DistrictType.POWER_STATION) &&
            (runSimulation level levees).flooded.getD
              (districtIndex level.width d) false) : Int) -
        (level.districts.map (fun d =>
          if d.type = DistrictType.POWER_STATION ∧
              (runSimulation level levees).flooded.getD
                (districtIndex level.width d) false = true then
            (level.districts.countP (fun e =>
              decide (e.type = DistrictType.HOME) &&
                decide (adjDistrict d e)) : Int)
          else 0)).sum := by
  unfold WFLevel at hwf
  obtain ⟨hw, hh, hlen, hds⟩ := hwf
  rw [runSimulation_eq_active level levees hact]
  dsimp only
  constructor
  · exact List.countP_eq_length_filter _ _
  · show scorePass2 _ _ _ _ _ _ = _
    rw [scorePass2_eq, scorePass1_snd]
    have hmap : ∀ d ∈ level.districts,
        (if d.type = DistrictType.POWER_STATION ∧
            (bfsSearch level.width level.height
              (computeBlockedMask level (some levees) true)
              (floodSeed level)).marked.getD
                (districtIndex level.width d) false = true then
          (adjacentHomeCount d.x d.y level.width level.height
            (scorePass1 level.width level.districts
              (bfsSearch level.width level.height
                (computeBlockedMask level (some levees) true)
                (floodSeed level)).marked
              (((List.range (level.width * level.height)).countP (fun i =>
                decide (level.tiles.getD i Tile.LAND = Tile.LAND) &&
                  !((bfsSearch level.width level.height
                    (computeBlockedMask level (some levees) true)
                    (floodSeed level)).marked.getD i false) &&
                  !(levees.getD i false)) : Nat) : Int)).1 : Int)
        else 0) =
        (if d.type = DistrictType.POWER_STATION ∧
            (bfsSearch level.width level.height
              (computeBlockedMask level (some levees) true)
              (floodSeed level)).marked.getD
                (districtIndex level.width d) false = true then
          (level.districts.countP (fun e =>
            decide (e.type = DistrictType.HOME) &&
              decide (adjDistrict d e)) : Int)
        else 0) := by
      intro d hd
      by_cases hc : d.type = DistrictType.POWER_STATION ∧
          (bfsSearch level.width level.height
            (computeBlockedMask level (some levees) true)
            (floodSeed level)).marked.getD
              (districtIndex level.width d) false = true
      · rw [if_pos hc, if_pos hc,
          adjacentHomeCount_eq hnd hds (hds d hd).1]
      · rw [if_neg hc, if_neg hc]
    rw [List.map_congr_left hmap]

/-- C6 witness: the scoring formula on the enclosed-centre 3×3 level. -/
theorem claim_C6_witness :
    WFLevel exLevelH ∧
      (exLevelH.districts.map (districtIndex exLevelH.width)).Nodup ∧
      detectContainedArea exLevelH exLeveesC = true ∧
      ((runSimulation exLevelH exLeveesC).dryLand =
        ((List.range (exLevelH.width * exLevelH.height)).filter (fun i =>
          decide (exLevelH.tiles.getD i Tile.LAND = Tile.LAND) &&
            !((runSimulation exLevelH exLeveesC).flooded.getD i false) &&
            !(exLeveesC.getD i false))).length ∧
      (runSimulation exLevelH exLeveesC).score =
        ((runSimulation exLevelH exLeveesC).dryLand : Int) +
          3 * (exLevelH.districts.countP (fun d =>
            decide (d.type = DistrictType.HOME) &&
              !((runSimulation exLevelH exLeveesC).flooded.getD
                (districtIndex exLevelH.width d) false)) : Int) +
          10 * (exLevelH.districts.countP (fun d =>
            decide (d.type = DistrictType.HOSPITAL) &&
              !((runSimulation exLevelH exLeveesC).flooded.getD
                (districtIndex exLevelH.width d) false)) : Int) -
          5 * (exLevelH.districts.countP (fun d =>
            decide (d.type = DistrictType.POWER_STATION) &&
              (runSimulation exLevelH exLeveesC).flooded.getD
                (districtIndex exLevelH.width d) false) : Int) -
          (exLevelH.districts.map (fun d =>
            if d.type = DistrictType.POWER_STATION ∧
                (runSimulation exLevelH exLeveesC).flooded.getD
                  (districtIndex exLevelH.width d) false = true then
              (exLevelH.districts.countP (fun e =>
                decide (e.type = DistrictType.HOME) &&
                  decide (adjDistrict d e)) : Int)
            else 0)).sum) :=
  ⟨by decide, by decide, by decide,
    claim_C6 exLevelH exLeveesC (by decide) (by decide) (by decide)⟩

/-- The all-open 3×3 level with two `HOME` districts stacked on one cell next
to a `POWER_STATION`: the district map keeps only the last entry per cell, so
the per-district adjacency penalty of the claim over-counts. -/
def cexLevel6 : LevelData :=
  { date := "2024-01-01", width := 3, height := 3, wallBudget := 5,
    tiles := List.replicate 9 Tile.LAND,
    districts := [{ type := DistrictType.HOME, x := 1, y := 1 },
      { type := DistrictType.POWER_STATION, x := 0, y := 0 },
      { type := DistrictType.HOME, x := 1, y := 0 },
      { type := DistrictType.HOME, x := 1, y := 0 }],
    notes := none }

/-- C6 counterexample: on `cexLevel6` (well-formed, flooding active, but two
`HOME` districts on one cell) the code's score is `-3` while the claim's
formula gives `-4`: the `Map`-backed `adjacentHomeCount` counts the shared
cell once, the claim counts each district. -/
theorem claim_C6_counterexample :
    WFLevel cexLevel6 ∧
      detectContainedArea cexLevel6 exLeveesC = true ∧
      (runSimulation cexLevel6 exLeveesC).score = -3 ∧
      ((runSimulation cexLevel6 exLeveesC).dryLand : Int) +
          3 * (cexLevel6.districts.countP (fun d =>
            decide (d.type = DistrictType.HOME) &&
              !((runSimulation cexLevel6 exLeveesC).flooded.getD
                (districtIndex cexLevel6.width d) false)) : Int) +
          10 * (cexLevel6.districts.countP (fun d =>
            decide (d.type = DistrictType.HOSPITAL) &&
              !((runSimulation cexLevel6 exLeveesC).flooded.getD
                (districtIndex cexLevel6.width d) false)) : Int) -
          5 * (cexLevel6.districts.countP (fun d =>
            decide (d.type = DistrictType.POWER_STATION) &&
              (runSimulation cexLevel6 exLeveesC).flooded.getD
                (districtIndex cexLevel6.width d) false) : Int) -
          (cexLevel6.districts.map (fun d =>
            if d.type = DistrictType.POWER_STATION ∧
                (runSimulation cexLevel6 exLeveesC).flooded.getD
                  (districtIndex cexLevel6.width d) false = true then
              (cexLevel6.districts.countP (fun e =>
                decide (e.type = DistrictType.HOME) &&
                  decide (adjDistrict d e)) : Int)
            else 0)).sum = -4 := by
  decide

/-- C7: `runSimulation` floods exactly when `detectContainedArea` holds; when
it does not, the result is inert — all-zero flooded field, empty flood order,
score 0, `dryLand` 0, `waterActive` false. -/
theorem claim_C7 (level : LevelData) (levees : List Bool) :
    (runSimulation level levees).waterActive =
        detectContainedArea level levees ∧
      (detectContainedArea level levees = false →
        (runSimulation level levees).flooded =
            List.replicate (level.width * level.height) false ∧
          (runSimulation level levees).floodOrder = [] ∧
          (runSimulation level levees).score = 0 ∧
          (runSimulation level levees).dryLand = 0 ∧
          (runSimulation level levees).waterActive = false) := by
  cases hdet : detectContainedArea level levees
  · rw [runSimulation_eq_inactive level levees hdet]
    exact ⟨rfl, fun _ => ⟨rfl, rfl, rfl, rfl, rfl⟩⟩
  · rw [runSimulation_eq_active level levees hdet]
    exact ⟨rfl, fun hc => Bool.noConfusion hc⟩

/-- C7 witness: the inert result on the all-open level with no levees. -/
theorem claim_C7_witness :
    detectContainedArea exLevelH
        (List.replicate (exLevelH.width * exLevelH.height) false) = false ∧
      (runSimulation exLevelH
          (List.replicate (exLevelH.width * exLevelH.height) false)).flooded =
          List.replicate (exLevelH.width * exLevelH.height) false ∧
        (runSimulation exLevelH
          (List.replicate (exLevelH.width * exLevelH.height) false)).floodOrder
            = [] ∧
        (runSimulation exLevelH
          (List.replicate (exLevelH.width * exLevelH.height) false)).score = 0 ∧
        (runSimulation exLevelH
          (List.replicate (exLevelH.width * exLevelH.height) false)).dryLand
            = 0 ∧
        (runSimulation exLevelH
          (List.replicate (exLevelH.width * exLevelH.height) false)).waterActive
            = false :=
  ⟨by decide,
    (claim_C7 exLevelH
      (List.replicate (exLevelH.width * exLevelH.height) false)).2 (by decide)⟩

/-- C8 counterexample: a levee on the `HOME` district cell of the all-open
3×3 level is **not** ignored — with it containment detection fires, without it
it does not, so the core does not behave as if the invalid entry were absent. -/
theorem claim_C8_counterexample :
    WFLevel exLevelH ∧
      exLevelH.tiles.getD 4 Tile.LAND = Tile.LAND ∧
      exLevelH.districts = [{ type := DistrictType.HOME, x := 1, y := 1 }] ∧
      detectContainedArea exLevelH exLeveesC = true ∧
      detectContainedArea exLevelH (List.replicate 9 false) = false := by
  decide

/-- C8 amended: the core never fails (it is total), and a levee entry on a
`ROCK` cell is ignored exactly as claimed — the simulation and containment
detection behave as if the entry were absent; but a levee on a `WATER` or
`OUTFLOW` cell, or on a district cell of passable terrain, acts as a normal
barrier (see the counterexample). -/
theorem claim_C8_amended (level : LevelData) (levees : List Bool) (c : Nat)
    (hrock : level.tiles.getD c Tile.LAND = Tile.ROCK) :
    detectContainedArea level (levees.set c true) =
        detectContainedArea level (levees.set c false) ∧
      runSimulation level (levees.set c true) =
        runSimulation level (levees.set c false) := by
  have hraw : rawBlocked level (some (levees.set c true)) =
      rawBlocked level (some (levees.set c false)) := by
    unfold rawBlocked
    apply List.map_congr_left
    intro i _
    dsimp only
    by_cases hic : i = c
    · subst hic
      rw [hrock]
      rfl
    · rw [getD_set_ne hic, getD_set_ne hic]
  have hmask : computeBlockedMask level (some (levees.set c true)) true =
      computeBlockedMask level (some (levees.set c false)) true := by
    unfold computeBlockedMask
    rw [if_pos rfl, if_pos rfl, hraw]
  have hdet : detectContainedArea level (levees.set c true) =
      detectContainedArea level (levees.set c false) := by
    unfold detectContainedArea
    rw [hmask]
  refine ⟨hdet, ?_⟩
  cases hx : detectContainedArea level (levees.set c false)
  · rw [runSimulation_eq_inactive _ _ (hdet.trans hx),
      runSimulation_eq_inactive _ _ hx]
  · rw [runSimulation_eq_active _ _ (hdet.trans hx),
      runSimulation_eq_active _ _ hx, hmask]
    have hdry : (List.range (level.width * level.height)).countP (fun i =>
        decide (level.tiles.getD i Tile.LAND = Tile.LAND) &&
          !((bfsSearch level.width level.height
            (computeBlockedMask level (some (levees.set c false)) true)
            (floodSeed level)).marked.getD i false) &&
          !((levees.set c true).getD i false)) =
        (List.range (level.width * level.height)).countP (fun i =>
          decide (level.tiles.getD i Tile.LAND = Tile.LAND) &&
            !((bfsSearch level.width level.height
              (computeBlockedMask level (some (levees.set c false)) true)
              (floodSeed level)).marked.getD i false) &&
            !((levees.set c false).getD i false)) := by
      apply List.countP_congr
      intro i _
      by_cases hic : i = c
      · subst hic
        rw [hrock]
        simp
      · rw [getD_set_ne hic, getD_set_ne hic]
    rw [hdry]

/-- C8 amended, witness: a levee on the `ROCK` cell 1 of `cexLevel4` is
invisible to detection and simulation. -/
theorem claim_C8_amended_witness :
    cexLevel4.tiles.getD 1 Tile.LAND = Tile.ROCK ∧
      detectContainedArea cexLevel4 ((List.replicate 9 false).set 1 true) =
        detectContainedArea cexLevel4 ((List.replicate 9 false).set 1 false) ∧
      runSimulation cexLevel4 ((List.replicate 9 false).set 1 true) =
        runSimulation cexLevel4 ((List.replicate 9 false).set 1 false) :=
  ⟨by decide,
    (claim_C8_amended cexLevel4 (List.replicate 9 false) 1 (by decide)).1,
    (claim_C8_amended cexLevel4 (List.replicate 9 false) 1 (by decide)).2⟩

/-- A raw level with width and height 0: no row, no character is checked, so
`parseLevel` succeeds although the dimensions are non-positive. -/
def cexRaw9 : RawLevel :=
  { date := none, size := RawSize.pair 0 0, wallBudget := 3, tiles := [],
    districts := none, notes := none }

/-- A raw level with an unsupported tile character. -/
def cexRaw9bad : RawLevel :=
  { date := none, size := RawSize.pair 2 2, wallBudget := 3,
    tiles := ["LX", "RO"], districts := none, notes := none }

/-- C9 counterexample: `parseLevel` accepts the 0×0 raw level — non-positive
dimensions are never rejected. -/
theorem claim_C9_counterexample :
    (rawDims cexRaw9.size).1 ≤ 0 ∧ (rawDims cexRaw9.size).2 ≤ 0 ∧
      parseOk cexRaw9 "2024-01-01" = true := by
  decide

/-- C9 amended: `parseLevel` throws exactly when the tiles array does not
consist of `height` rows of exactly `width` characters drawn from the
supported alphabet; integer but non-positive dimensions are not rejected
(see the counterexample). -/
theorem claim_C9_amended (raw : RawLevel) (date : String) :
    parseOk raw date = false ↔
      ¬ ((raw.tiles.length : Int) = (rawDims raw.size).2 ∧
        ∀ row ∈ raw.tiles, (row.length : Int) = (rawDims raw.size).1 ∧
          ∀ c ∈ row.toList, c ∈ ['L', 'W', 'R', 'O']) := by
  constructor
  · intro hf hcontra
    rw [(parseOk_iff raw date).mpr hcontra] at hf
    cases hf
  · intro hn
    cases h : parseOk raw date
    · rfl
    · exact absurd ((parseOk_iff raw date).mp h) hn

/-- C9 amended, witness: the raw level with the unsupported character `X` is
rejected. -/
theorem claim_C9_amended_witness :
    parseOk cexRaw9bad "2024-01-01" = false :=
  (claim_C9_amended cexRaw9bad "2024-01-01").mpr (by decide)

/-- C10: a flooded cell is never blocked — it is unblocked in the
closure-applied levee-inclusive mask, its terrain is not `ROCK`, and it
carries no levee. -/
theorem claim_C10 (level : LevelData) (levees : List Bool) (i : Nat)
    (hf : (runSimulation level levees).flooded.getD i false = true) :
    (computeBlockedMask level (some levees) true).getD i false = false ∧
      level.tiles.getD i Tile.LAND ≠ Tile.ROCK ∧
      levees.getD i false = false := by
  cases hdet : detectContainedArea level levees
  · rw [runSimulation_eq_inactive level levees hdet] at hf
    rw [getD_replicate_false] at hf
    cases hf
  · rw [runSimulation_eq_active level levees hdet] at hf
    obtain ⟨hInv, _, _, _⟩ := @bfsSearch_spec level.width level.height
      (computeBlockedMask level (some levees) true) (floodSeed level)
    have hmem := (hInv.markedIff i).mp hf
    have hblocked := hInv.notBlocked i hmem
    have hlt := hInv.bound i hmem
    have hrawf : (rawBlocked level (some levees)).getD i false = false := by
      cases hx : (rawBlocked level (some levees)).getD i false
      · rfl
      · exact absurd (computeBlockedMask_extends hx)
          (by rw [hblocked]; exact Bool.false_ne_true)
    rw [rawBlocked_getD hlt, Bool.or_eq_false_iff] at hrawf
    exact ⟨hblocked, of_decide_eq_false hrawf.1, hrawf.2⟩

/-- C10 witness: the flooded corner cell of the enclosed-centre level is
unblocked, non-`ROCK` and levee-free. -/
theorem claim_C10_witness :
    (runSimulation exLevelH exLeveesC).flooded.getD 0 false = true ∧
      ((computeBlockedMask exLevelH (some exLeveesC) true).getD 0 false =
          false ∧
        exLevelH.tiles.getD 0 Tile.LAND ≠ Tile.ROCK ∧
        exLeveesC.getD 0 false = false) :=
  ⟨by decide, claim_C10 exLevelH exLeveesC 0 (by decide)⟩

end Flood
